import Mathlib

/-!
# SDIO host transport (`sdio_host.c`, `netdev_stub.c`): embedding and verified properties

A shallow embedding of the host-side SDIO transport driver
(`drivers/transport/sdio/sdio_host.c`) and of the receive path of the network
device stub (`drivers/network/netdev_stub.c`).  The two file-level counters
`sdio_esp_tx_bytes` and `sdio_esp_rx_bytes` become fields of an explicit
state, every call into the bus layer (`sdio_driver_*`, `hard_delay`) is
appended to a trace, and the bus itself is an arbitrary deterministic
environment: a function from the calls issued so far to the response of the
latest one.  `uint32_t` arithmetic is `Nat` arithmetic reduced modulo `2^32`.
-/

namespace SdioHost

/-! ## Machine integers -/

/-- Number of values of a `uint32_t`. -/
def U32 : Nat := 4294967296

/-- Addition of two `uint32_t` values. -/
def u32_add (a b : Nat) : Nat := (a + b) % U32

/-- Subtraction of two `uint32_t` values: the difference, `2^32` more when it
would fall below zero. -/
def u32_sub (a b : Nat) : Nat :=
  if b % U32 ≤ a % U32 then a % U32 - b % U32 else a % U32 + (U32 - b % U32)

/-- The C expression `(x + 3) & (~3)` on a 32-bit `int`: `~3` is the bit
pattern `0xFFFFFFFC`. -/
def align4 (x : Nat) : Nat := (x + 3) &&& 0xFFFFFFFC

/-! ## Status codes and constants -/

/-- Modelled from the spec: the status enum `stm_ret_t` is declared in a header
that is not part of the sources at hand.  `STM_OK` is the only value that is
zero, which is all that `if (err)` looks at; `STM_FAIL_OTHER` stands for the
remaining members of the enum. -/
inductive stm_ret_t where
  | STM_OK
  | STM_FAIL
  | STM_FAIL_TIMEOUT
  | STM_FAIL_INVALID_ARG
  | STM_FAIL_OTHER (code : Nat)
  deriving DecidableEq

open stm_ret_t

/-- Modelled from the spec: `ESP_BLOCK_SIZE` of `sdio_reg.h`; the block size is
fixed to 512 bytes. -/
def ESP_BLOCK_SIZE : Nat := 512

/-- Modelled from the spec: bus function 1, the data channel. -/
def SDIO_FUNC_1 : Nat := 1

/-- The constants of `sdio_reg.h` the driver uses; the header is not part of
the sources at hand, so they are parameters of the embedding.  Register names
stand for the address after `SDIO_REG(...)` has been applied. -/
structure Config where
  ESP_SLAVE_LEN_MASK : Nat
  ESP_RX_BYTE_MAX : Nat
  ESP_TX_BUFFER_MAX : Nat
  ESP_SLAVE_CMD53_END_ADDR : Nat
  ESP_SLAVE_PACKET_LEN_REG : Nat

/-! ## The bus environment -/

/-- Where a bus read stores its data, or a bus write takes it from. -/
inductive Buf where
  /-- A local `uint32_t` of the calling function (`&len`). -/
  | local_var
  /-- The packet buffer of the caller, at a byte offset from its start. -/
  | data (offset : Nat)
  /-- A `uint32_t` holding `val` that a write takes its bytes from
  (`&intr_mask`). -/
  | word (val : Nat)
  deriving DecidableEq

/-- One call from the driver into the layers below it, with its arguments. -/
inductive BusOp where
  /-- Call `sdio_driver_read_bytes(func, reg, data, size, flags)`. -/
  | read_bytes (func reg : Nat) (data : Buf) (size flags : Nat)
  /-- Call `sdio_driver_read_blocks(func, addr, data, block_len, block_count)`. -/
  | read_blocks (func addr : Nat) (data : Buf) (block_len block_count : Nat)
  /-- Call `sdio_driver_write_bytes(func, reg, data, size)`. -/
  | write_bytes (func reg : Nat) (data : Buf) (size : Nat)
  /-- Call `sdio_driver_write_blocks(func, addr, data, size)`. -/
  | write_blocks (func addr : Nat) (data : Buf) (size : Nat)
  /-- Call `hard_delay(ms)`. -/
  | hard_delay (ms : Nat)
  /-- Call `sdio_driver_init()`. -/
  | driver_init
  /-- Call `sdio_driver_read_byte(func, reg, &out)`. -/
  | read_byte (func reg : Nat)
  /-- Call `sdio_driver_write_byte(func, reg, val, &out)`. -/
  | write_byte (func reg val : Nat)
  /-- Call `STM32WriteReg(func, reg, val)`. -/
  | write_reg (func reg val : Nat)
  deriving DecidableEq

/-- What a bus call returns: its status and the value it stores through its
output pointer, if it has one: the four bytes read into a local `uint32_t`,
the byte read by `sdio_driver_read_byte`, the byte `sdio_driver_write_byte`
reports as latched. -/
structure BusResp where
  ret : stm_ret_t
  val : Nat
  deriving DecidableEq

/-- A bus: the response to the latest call, given all calls issued so far in
order (the latest one last). -/
abbrev Bus := List BusOp → BusResp

/-- The file-level counters of the driver together with the calls issued so
far. -/
structure World where
  sdio_esp_tx_bytes : Nat
  sdio_esp_rx_bytes : Nat
  trace : List BusOp
  deriving DecidableEq

/-- Issue one call: it is appended to the trace and the bus answers. -/
def bus_call (bus : Bus) (w : World) (op : BusOp) : BusResp × World :=
  (bus (w.trace ++ [op]), { w with trace := w.trace ++ [op] })

/-! ## Receive: length discovery -/

/-- Lines 140-150 of `esp_sdio_slave_get_rx_data_size`: the value read from the
length register is masked and offset against the receive counter. -/
def rx_len_decode (c : Config) (rx_bytes : Nat) (raw : Nat) : Nat :=
  let len := (raw % U32) &&& c.ESP_SLAVE_LEN_MASK
  if len ≥ rx_bytes then
    (u32_sub (u32_add len c.ESP_RX_BYTE_MAX) rx_bytes) % c.ESP_RX_BYTE_MAX
  else
    let temp := u32_sub c.ESP_RX_BYTE_MAX rx_bytes
    u32_add temp len

/-- The source function `esp_sdio_slave_get_rx_data_size(&len)`: the returned
length is `none` when `*rx_size` is not written (the read failed). -/
def esp_sdio_slave_get_rx_data_size (c : Config) (bus : Bus) (w : World) :
    stm_ret_t × Option Nat × World :=
  let r := bus_call bus w
    (BusOp.read_bytes SDIO_FUNC_1 c.ESP_SLAVE_PACKET_LEN_REG Buf.local_var 4 0)
  if r.1.ret ≠ STM_OK then
    (r.1.ret, none, r.2)
  else
    (STM_OK, some (rx_len_decode c w.sdio_esp_rx_bytes r.1.val), r.2)

/-- What the polling loop of `sdio_host_get_packet` ends with. -/
inductive PollResult where
  /-- The loop was left by `break`: a length was obtained. -/
  | ready (len : Nat) (w : World)
  /-- The loop was left by `return STM_FAIL_TIMEOUT`. -/
  | timed_out (w : World)
  deriving DecidableEq

/-- The loop `for (;;)` of `sdio_host_get_packet` (lines 186-202), one
iteration per unit of fuel; `len` and `wait_time` are the local variables.
`wait_time` never exceeds `wait_ms`, a `uint32_t`, so `wait_time++` cannot
wrap. -/
def get_packet_poll (c : Config) (bus : Bus) (wait_ms : Nat) :
    Nat → Nat → Nat → World → Option PollResult
  | 0, _, _, _ => none
  | fuel + 1, len, wait_time, w =>
    let r := esp_sdio_slave_get_rx_data_size c bus w
    let err := r.1
    let len := match r.2.1 with
      | some l => l
      | none => len
    let w := r.2.2
    if err = STM_OK ∧ len > 0 then
      some (PollResult.ready len w)
    else
      let wait_time := wait_time + 1
      if wait_time ≥ wait_ms then
        some (PollResult.timed_out w)
      else
        let w := (bus_call bus w (BusOp.hard_delay 1)).2
        get_packet_poll c bus wait_ms fuel len wait_time w

/-! ## Receive: transfer loop and bookkeeping -/

/-- Lines 215-234 of `sdio_host_get_packet`: what one iteration of the transfer
loop does with `len_remain` bytes left and `start_ptr` bytes into `out_data`:
the bus call it issues, and the value it gives `len_to_send`. -/
def get_packet_chunk (c : Config) (len_remain start_ptr : Nat) : BusOp × Nat :=
  let block_n := len_remain / ESP_BLOCK_SIZE
  if block_n ≠ 0 then
    let len_to_send := ESP_BLOCK_SIZE
    (BusOp.read_blocks SDIO_FUNC_1
      (u32_sub c.ESP_SLAVE_CMD53_END_ADDR len_remain)
      (Buf.data start_ptr) len_to_send block_n, len_to_send)
  else
    let len_to_send := len_remain
    (BusOp.read_bytes SDIO_FUNC_1
      (u32_sub c.ESP_SLAVE_CMD53_END_ADDR len_remain)
      (Buf.data start_ptr) (align4 len_to_send) block_n, len_to_send)

/-- The skeleton the two transfer loops share, `do { <chunk>; if (err) return
err; start_ptr += len_to_send; len_remain -= len_to_send; } while (len_remain)`,
one iteration per unit of fuel.  `start_ptr` is kept as the offset into the
packet buffer.  The result is the status the loop ends with: an error makes
the function return it, `STM_OK` means the loop ran to its end. -/
def transfer_loop (chunk : Nat → Nat → BusOp × Nat) (bus : Bus) :
    Nat → Nat → Nat → World → Option (stm_ret_t × World)
  | 0, _, _, _ => none
  | fuel + 1, len_remain, start_ptr, w =>
    let len_to_send := (chunk len_remain start_ptr).2
    let r := bus_call bus w (chunk len_remain start_ptr).1
    if r.1.ret ≠ STM_OK then
      some (r.1.ret, r.2)
    else
      let start_ptr := start_ptr + len_to_send
      let len_remain := u32_sub len_remain len_to_send
      if len_remain ≠ 0 then
        transfer_loop chunk bus fuel len_remain start_ptr r.2
      else
        some (STM_OK, r.2)

/-- The loop `do ... while (len_remain != 0)` of `sdio_host_get_packet` (lines
212-243). -/
def get_packet_transfer (c : Config) (bus : Bus) (fuel len_remain start_ptr : Nat)
    (w : World) : Option (stm_ret_t × World) :=
  transfer_loop (get_packet_chunk c) bus fuel len_remain start_ptr w

/-- Lines 246-249 of `sdio_host_get_packet`: the receive counter is advanced by
the length received and reduced by the modulus once if it reached it. -/
def rx_bytes_advance (c : Config) (rx_bytes len : Nat) : Nat :=
  let rx := u32_add rx_bytes len
  if rx ≥ c.ESP_RX_BYTE_MAX then u32_sub rx c.ESP_RX_BYTE_MAX else rx

/-- What `sdio_host_get_packet` hands back: its return value, the value stored
through `out_length` (`none` when nothing was stored) and the state after. -/
structure GetPacketResult where
  ret : stm_ret_t
  out_length : Option Nat
  world : World
  deriving DecidableEq

/-- The source function `sdio_host_get_packet(out_data, size, out_length,
wait_ms)`.  The polling loop runs at most `max wait_ms 1` times and the
transfer loop at most `len / 512 + 1` times, so the fuel given is enough. -/
def sdio_host_get_packet (c : Config) (bus : Bus) (w : World)
    (size wait_ms : Nat) : Option GetPacketResult :=
  if size ≤ 0 then
    some ⟨STM_FAIL_INVALID_ARG, none, w⟩
  else
    match get_packet_poll c bus wait_ms (wait_ms + 1) 0 0 w with
    | none => none
    | some (PollResult.timed_out w1) => some ⟨STM_FAIL_TIMEOUT, none, w1⟩
    | some (PollResult.ready len w1) =>
      if len > size then
        some ⟨STM_OK, none, w1⟩
      else
        match get_packet_transfer c bus (len + 1) len 0 w1 with
        | none => none
        | some (err, w2) =>
          if err ≠ STM_OK then
            some ⟨err, none, w2⟩
          else
            let rx := rx_bytes_advance c w2.sdio_esp_rx_bytes len
            some ⟨STM_OK, some len, { w2 with sdio_esp_rx_bytes := rx }⟩

/-! ## Send -/

/-- Lines 380-392 of `sdio_host_send_packet`: what one iteration of the transfer
loop does with `len_remain` bytes left and `start_ptr` bytes into the packet:
the bus call it issues, and the value it gives `len_to_send`. -/
def send_packet_chunk (c : Config) (len_remain start_ptr : Nat) : BusOp × Nat :=
  let block_n := len_remain / ESP_BLOCK_SIZE
  if block_n ≠ 0 then
    let len_to_send := block_n * ESP_BLOCK_SIZE
    (BusOp.write_blocks SDIO_FUNC_1
      (u32_sub c.ESP_SLAVE_CMD53_END_ADDR len_remain)
      (Buf.data start_ptr) len_to_send, len_to_send)
  else
    let len_to_send := len_remain
    (BusOp.write_bytes SDIO_FUNC_1
      (u32_sub c.ESP_SLAVE_CMD53_END_ADDR len_remain)
      (Buf.data start_ptr) (align4 len_to_send), len_to_send)

/-- The loop `do ... while (len_remain)` of `sdio_host_send_packet` (lines
374-400). -/
def send_packet_transfer (c : Config) (bus : Bus) (fuel len_remain start_ptr : Nat)
    (w : World) : Option (stm_ret_t × World) :=
  transfer_loop (send_packet_chunk c) bus fuel len_remain start_ptr w

/-- The value of `buffer_used` in `sdio_host_send_packet` (line 352). -/
def buffer_used (length : Nat) : Nat :=
  u32_sub (u32_add length ESP_BLOCK_SIZE) 1 / ESP_BLOCK_SIZE

/-- Lines 402-406 of `sdio_host_send_packet`: the transmit counter is reduced by
the modulus once if it had reached it, then advanced by the buffers used. -/
def tx_bytes_advance (c : Config) (tx_bytes used : Nat) : Nat :=
  let tx := if tx_bytes ≥ c.ESP_TX_BUFFER_MAX
    then u32_sub tx_bytes c.ESP_TX_BUFFER_MAX else tx_bytes
  u32_add tx used

/-- The source function `sdio_host_send_packet(start, length)`; `length` is a
`uint32_t`.  Every iteration of the transfer loop but the last moves at least
512 bytes, so the fuel given is enough. -/
def sdio_host_send_packet (c : Config) (bus : Bus) (w : World) (length : Nat) :
    Option (stm_ret_t × World) :=
  match send_packet_transfer c bus (length % U32 + 1) (length % U32) 0 w with
  | none => none
  | some (err, w1) =>
    if err ≠ STM_OK then
      some (err, w1)
    else
      let tx := tx_bytes_advance c w1.sdio_esp_tx_bytes (buffer_used (length % U32))
      some (STM_OK, { w1 with sdio_esp_tx_bytes := tx })


/-! ## Sample configuration for concrete evaluations -/

/-- A configuration for concrete runs: the receive modulus 131072 of the
documented scenarios with the matching 17-bit length mask, a transmit modulus
of 4096 buffers, and the CMD53 end address `0x1F800`. -/
def sample_config : Config :=
  { ESP_SLAVE_LEN_MASK := 131071
    ESP_RX_BYTE_MAX := 131072
    ESP_TX_BUFFER_MAX := 4096
    ESP_SLAVE_CMD53_END_ADDR := 129024
    ESP_SLAVE_PACKET_LEN_REG := 96 }

/-- A bus on which every call succeeds and every register read yields `v`. -/
def const_bus (v : Nat) : Bus := fun _ => ⟨STM_OK, v⟩

/-- A bus on which every call fails with `e`. -/
def failing_bus (e : stm_ret_t) : Bus := fun _ => ⟨e, 0⟩

/-- A bus whose first call is answered with `first` and every later call with
`rest`. -/
def first_then_bus (first rest : BusResp) : Bus :=
  fun tr => if tr.length ≤ 1 then first else rest

/-- The state right after driver start: both counters zero, nothing issued. -/
def initial_world : World := ⟨0, 0, []⟩

/-- The read of the packet-length register issued by
`esp_sdio_slave_get_rx_data_size`. -/
def len_reg_read (c : Config) : BusOp :=
  BusOp.read_bytes SDIO_FUNC_1 c.ESP_SLAVE_PACKET_LEN_REG Buf.local_var 4 0

/-- The calls of a polling loop that never sees data and gives up after
`k + 1` reads of the length register: the reads, with one `hard_delay(1)`
between each two of them. -/
def idle_polls (c : Config) : Nat → List BusOp
  | 0 => [len_reg_read c]
  | k + 1 => len_reg_read c :: BusOp.hard_delay 1 :: idle_polls c k

/-- The number of bytes a call asks the bus to move to or from the packet
buffer: `block_len * block_count` for a block read, the `size` argument for
the other transfers, nothing for a register read into a local variable or a
delay. -/
def data_bytes : BusOp → Nat
  | BusOp.read_blocks _ _ (Buf.data _) block_len block_count => block_len * block_count
  | BusOp.read_bytes _ _ (Buf.data _) size _ => size
  | BusOp.write_bytes _ _ (Buf.data _) size => size
  | BusOp.write_blocks _ _ (Buf.data _) size => size
  | _ => 0

/-! ## Runs of several calls -/

/-- A run of `sdio_host_get_packet` calls on one bus, each given by its
`(size, wait_ms)`: the lengths stored through `out_length`, in order, and the
state after the last call.  The run is `none` as soon as a call does not
return `STM_OK`. -/
def get_packets (c : Config) (bus : Bus) :
    World → List (Nat × Nat) → Option (List Nat × World)
  | w, [] => some ([], w)
  | w, call :: rest =>
    match sdio_host_get_packet c bus w call.1 call.2 with
    | some ⟨STM_OK, out_length, w1⟩ =>
      match get_packets c bus w1 rest with
      | some (lens, w2) => some (out_length.toList ++ lens, w2)
      | none => none
    | _ => none

/-- A run of `sdio_host_send_packet` calls on one bus, each given by its
`length`: the state after the last call, or `none` as soon as a call does not
return `STM_OK`. -/
def send_packets (c : Config) (bus : Bus) : World → List Nat → Option World
  | w, [] => some w
  | w, length :: rest =>
    match sdio_host_send_packet c bus w length with
    | some (STM_OK, w1) => send_packets c bus w1 rest
    | _ => none

/-! ## Initialisation -/

/-- Modelled from the spec: bus function 0, the control function (CCCR). -/
def SDIO_FUNC_0 : Nat := 0

/-- The CCCR register addresses `SD_IO_CCCR_*` that `esp_slave_init_io` uses;
their header is not part of the sources at hand, so they are parameters. -/
structure CccrRegs where
  SD_IO_CCCR_FN_ENABLE : Nat
  SD_IO_CCCR_FN_READY : Nat
  SD_IO_CCCR_INT_ENABLE : Nat
  SD_IO_CCCR_BLKSIZEL : Nat
  SD_IO_CCCR_BLKSIZEH : Nat

/-- The local `uint8_t` variables of `esp_slave_init_io`. -/
structure InitLocals where
  ioe : Nat
  ior : Nat
  ie : Nat
  bsl : Nat
  bsh : Nat
  func1_bsl : Nat
  func1_bsh : Nat
  func2_bsl : Nat
  func2_bsh : Nat
  deriving DecidableEq

/-- An argument expression of `CHECK_SDIO_ERR`: evaluated in a state of the
local variables it issues calls, may store into the variables, and yields a
status. -/
abbrev CheckedExpr (σ : Type) := σ → World → stm_ret_t × σ × World

/-- The macro `CHECK_SDIO_ERR(ErR)` (lines 28-33): `if (ErR) { ESP_LOGE(...,
ErR); return ErR; }`.  Its argument is expanded three times, so a non-zero
first evaluation is followed by a second one as argument of `ESP_LOGE` (when
`log_err`, that is when error logging is compiled in and evaluates its
arguments) and by a third one whose value is returned.  The result is `some
status` when the macro returns from the enclosing function and `none` when
control goes on after it. -/
def CHECK_SDIO_ERR {σ : Type} (log_err : Bool) (ErR : CheckedExpr σ) (s : σ) (w : World) :
    Option stm_ret_t × σ × World :=
  let r1 := ErR s w
  if r1.1 ≠ STM_OK then
    let r2 := if log_err then ErR r1.2.1 r1.2.2 else r1
    let r3 := ErR r2.2.1 r2.2.2
    (some r3.1, r3.2.1, r3.2.2)
  else
    (none, r1.2.1, r1.2.2)

/-- Sequencing after a `CHECK_SDIO_ERR`: the enclosing function returns the
status if the macro returned, and goes on with `k` otherwise. -/
def check_then {σ : Type} (r : Option stm_ret_t × σ × World)
    (k : σ → World → stm_ret_t × World) : stm_ret_t × World :=
  match r with
  | (some err, _, w) => (err, w)
  | (none, s, w) => k s w

/-- The expression `sdio_driver_read_byte(func, reg, &x)`; `set` stores the
byte into the variable `x`. -/
def read_byte_expr (bus : Bus) (func reg : Nat) (set : InitLocals → Nat → InitLocals) :
    CheckedExpr InitLocals :=
  fun s w =>
    let r := bus_call bus w (BusOp.read_byte func reg)
    (r.1.ret, set s (r.1.val % 256), r.2)

/-- The expression `sdio_driver_write_byte(func, reg, x, &y)`; `get` reads the
variable `x` and `set` stores the latched byte into the variable `y`. -/
def write_byte_expr (bus : Bus) (func reg : Nat) (get : InitLocals → Nat)
    (set : InitLocals → Nat → InitLocals) : CheckedExpr InitLocals :=
  fun s w =>
    let r := bus_call bus w (BusOp.write_byte func reg (get s))
    (r.1.ret, set s (r.1.val % 256), r.2)

/-- The source function `esp_slave_init_io()` (lines 56-109). -/
def esp_slave_init_io (regs : CccrRegs) (log_err : Bool) (bus : Bus) (w : World) :
    stm_ret_t × World :=
  let s : InitLocals := ⟨0, 0, 0, 0, 0, 0, 0, 0, 0⟩
  check_then (CHECK_SDIO_ERR log_err (read_byte_expr bus SDIO_FUNC_0
    regs.SD_IO_CCCR_FN_ENABLE (fun s v => { s with ioe := v })) s w) fun s w =>
  check_then (CHECK_SDIO_ERR log_err (read_byte_expr bus SDIO_FUNC_0
    regs.SD_IO_CCCR_FN_READY (fun s v => { s with ior := v })) s w) fun s w =>
  let s := { s with ioe := 6 }
  check_then (CHECK_SDIO_ERR log_err (write_byte_expr bus SDIO_FUNC_0
    regs.SD_IO_CCCR_FN_ENABLE (fun s => s.ioe) (fun s v => { s with ioe := v })) s w) fun s w =>
  let s := { s with ior := 6 }
  check_then (CHECK_SDIO_ERR log_err (write_byte_expr bus SDIO_FUNC_0
    regs.SD_IO_CCCR_FN_READY (fun s => s.ioe) (fun s v => { s with ior := v })) s w) fun s w =>
  check_then (CHECK_SDIO_ERR log_err (read_byte_expr bus SDIO_FUNC_0
    regs.SD_IO_CCCR_INT_ENABLE (fun s v => { s with ie := v })) s w) fun s w =>
  let s := { s with ie := 7 }
  check_then (CHECK_SDIO_ERR log_err (write_byte_expr bus SDIO_FUNC_0
    regs.SD_IO_CCCR_INT_ENABLE (fun s => s.ie) (fun s v => { s with ie := v })) s w) fun s w =>
  check_then (CHECK_SDIO_ERR log_err (write_byte_expr bus SDIO_FUNC_0
    regs.SD_IO_CCCR_BLKSIZEL (fun s => s.bsl) (fun s v => { s with bsl := v })) s w) fun s w =>
  let s := { s with bsh := 2 }
  check_then (CHECK_SDIO_ERR log_err (write_byte_expr bus SDIO_FUNC_0
    regs.SD_IO_CCCR_BLKSIZEH (fun s => s.bsh) (fun s v => { s with bsh := v })) s w) fun s w =>
  check_then (CHECK_SDIO_ERR log_err (write_byte_expr bus SDIO_FUNC_0
    0x110 (fun s => s.func1_bsl) (fun s v => { s with func1_bsl := v })) s w) fun s w =>
  let s := { s with func1_bsh := 2 }
  check_then (CHECK_SDIO_ERR log_err (write_byte_expr bus SDIO_FUNC_0
    0x111 (fun s => s.func1_bsh) (fun s v => { s with func1_bsh := v })) s w) fun s w =>
  check_then (CHECK_SDIO_ERR log_err (write_byte_expr bus SDIO_FUNC_0
    0x210 (fun s => s.func2_bsl) (fun s v => { s with func2_bsl := v })) s w) fun s w =>
  let s := { s with func2_bsh := 2 }
  check_then (CHECK_SDIO_ERR log_err (write_byte_expr bus SDIO_FUNC_0
    0x210 (fun s => s.func2_bsh) (fun s v => { s with func2_bsh := v })) s w) fun _ w =>
  (STM_OK, w)

/-- The source function `sdio_host_init()` (lines 116-123). -/
def sdio_host_init (regs : CccrRegs) (log_err : Bool) (bus : Bus) (w : World) :
    stm_ret_t × World :=
  check_then (CHECK_SDIO_ERR log_err
    (fun (_ : Unit) w =>
      let r := bus_call bus w BusOp.driver_init
      (r.1.ret, (), r.2)) () w) fun _ w =>
  check_then (CHECK_SDIO_ERR log_err
    (fun (_ : Unit) w =>
      let r := esp_slave_init_io regs log_err bus w
      (r.1, (), r.2)) () w) fun _ w =>
  (STM_OK, w)

/-- The standard CCCR addresses, for concrete runs: function enable 2,
function ready 3, interrupt enable 4, function 0 block size 0x10 and 0x11. -/
def sample_regs : CccrRegs :=
  { SD_IO_CCCR_FN_ENABLE := 2
    SD_IO_CCCR_FN_READY := 3
    SD_IO_CCCR_INT_ENABLE := 4
    SD_IO_CCCR_BLKSIZEL := 16
    SD_IO_CCCR_BLKSIZEH := 17 }

/-- A bus on which every call succeeds, every write reports the byte written
as latched, and every read yields 0. -/
def echo_bus : Bus := fun tr =>
  match tr.getLast? with
  | some (BusOp.write_byte _ _ val) => ⟨STM_OK, val⟩
  | _ => ⟨STM_OK, 0⟩

/-- The byte last written to register `reg` of function `func` by a
successful-or-not `sdio_driver_write_byte` in a trace, if any. -/
def last_written (func reg : Nat) : List BusOp → Option Nat
  | [] => none
  | BusOp.write_byte f r val :: rest =>
    match last_written func reg rest with
    | some v => some v
    | none => if f = func ∧ r = reg then some val else none
  | _ :: rest => last_written func reg rest

/-- A bus on which a call fails with `e` whenever it is the call `bad`, and
every other call succeeds with value 0. -/
def fail_at_bus (bad : BusOp) (e : stm_ret_t) : Bus := fun tr =>
  if tr.getLast? = some bad then ⟨e, 0⟩ else ⟨STM_OK, 0⟩

/-! ## Interrupt accessors and send credit -/

/-- The constants of `sdio_reg.h` used by the interrupt accessors and the
credit query; the header is not part of the sources at hand, so they are
parameters.  Register names stand for the address after `SDIO_REG(...)`. -/
structure IntrConfig where
  MAX_SDIO_SCRATCH_REG_SUPPORTED : Nat
  ESP_SDIO_CONF_OFFSET : Nat
  ESP_SLAVE_SCRATCH_REG_7 : Nat
  ESP_SLAVE_INT_CLR_REG : Nat
  ESP_SLAVE_INT_ST_REG : Nat
  ESP_SLAVE_TOKEN_RDATA : Nat
  ESP_SDIO_SEND_OFFSET : Nat
  ESP_TX_BUFFER_MASK : Nat

/-- The source function `sdio_host_clear_intr(intr_mask)` (lines 259-263). -/
def sdio_host_clear_intr (ic : IntrConfig) (bus : Bus) (w : World) (intr_mask : Nat) :
    stm_ret_t × World :=
  let r := bus_call bus w
    (BusOp.write_bytes SDIO_FUNC_1 ic.ESP_SLAVE_INT_CLR_REG (Buf.word intr_mask) 4)
  (r.1.ret, r.2)

/-- The source function `sdio_host_get_intr(intr_st)` (lines 273-290);
`intr_st_null` says whether the pointer passed is `NULL`, and the value stored
through it is `none` when nothing is read. -/
def sdio_host_get_intr (ic : IntrConfig) (bus : Bus) (w : World) (intr_st_null : Bool) :
    stm_ret_t × Option Nat × World :=
  if intr_st_null then
    (STM_FAIL_INVALID_ARG, none, w)
  else
    let r := bus_call bus w
      (BusOp.read_bytes SDIO_FUNC_1 ic.ESP_SLAVE_INT_ST_REG Buf.local_var 4 0)
    if r.1.ret ≠ STM_OK then
      (r.1.ret, some (r.1.val % U32), r.2)
    else
      (STM_OK, some (r.1.val % U32), r.2)

/-- The call `STM32WriteReg` that `sdio_host_send_intr` issues for interrupt
number `intr_no`: the value is the C expression `0x1 << (intr_no +
ESP_SDIO_CONF_OFFSET)` stored in a `uint32_t`. -/
def send_intr_write (ic : IntrConfig) (intr_no : Nat) : BusOp :=
  BusOp.write_reg SDIO_FUNC_1 ic.ESP_SLAVE_SCRATCH_REG_7
    ((1 <<< (intr_no + ic.ESP_SDIO_CONF_OFFSET)) % U32)

/-- The source function `sdio_host_send_intr(intr_no)` (lines 323-333);
`intr_no` is a `uint8_t`. -/
def sdio_host_send_intr (ic : IntrConfig) (bus : Bus) (w : World) (intr_no : Nat) :
    stm_ret_t × World :=
  if intr_no ≥ ic.MAX_SDIO_SCRATCH_REG_SUPPORTED then
    (STM_FAIL_INVALID_ARG, w)
  else
    let r := bus_call bus w (send_intr_write ic intr_no)
    (r.1.ret, r.2)

/-- The read of the token register issued by
`esp_sdio_host_get_buffer_size`. -/
def token_reg_read (ic : IntrConfig) : BusOp :=
  BusOp.read_bytes SDIO_FUNC_1 ic.ESP_SLAVE_TOKEN_RDATA Buf.local_var 4 0

/-- Lines 312-313 of `esp_sdio_host_get_buffer_size`: the credit computed from
the token register value and the transmit counter. -/
def tx_credit_decode (c : Config) (ic : IntrConfig) (tx_bytes raw : Nat) : Nat :=
  let len := ((raw % U32) >>> ic.ESP_SDIO_SEND_OFFSET) &&& ic.ESP_TX_BUFFER_MASK
  (u32_sub (u32_add len c.ESP_TX_BUFFER_MAX) tx_bytes) % c.ESP_TX_BUFFER_MAX

/-- The source function `esp_sdio_host_get_buffer_size()` (lines 300-316). -/
def esp_sdio_host_get_buffer_size (c : Config) (ic : IntrConfig) (bus : Bus) (w : World) :
    Nat × World :=
  let r := bus_call bus w (token_reg_read ic)
  if r.1.ret ≠ STM_OK then
    (0, r.2)
  else
    (tx_credit_decode c ic w.sdio_esp_tx_bytes r.1.val, r.2)

/-- Constants for concrete runs: scratch registers 0 to 3 supported, no
configuration offset, a 12-bit credit field at bit 16. -/
def sample_intr_config : IntrConfig :=
  { MAX_SDIO_SCRATCH_REG_SUPPORTED := 4
    ESP_SDIO_CONF_OFFSET := 0
    ESP_SLAVE_SCRATCH_REG_7 := 140
    ESP_SLAVE_INT_CLR_REG := 212
    ESP_SLAVE_INT_ST_REG := 88
    ESP_SLAVE_TOKEN_RDATA := 68
    ESP_SDIO_SEND_OFFSET := 16
    ESP_TX_BUFFER_MASK := 4095 }

/-- The end of the stretch of the packet buffer a call asks the bus to fill or
send: its buffer offset plus `data_bytes`; 0 for a call that does not touch
the packet buffer. -/
def data_end : BusOp → Nat
  | BusOp.read_blocks _ _ (Buf.data offset) block_len block_count =>
    offset + block_len * block_count
  | BusOp.read_bytes _ _ (Buf.data offset) size _ => offset + size
  | BusOp.write_bytes _ _ (Buf.data offset) size => offset + size
  | BusOp.write_blocks _ _ (Buf.data offset) size => offset + size
  | _ => 0

/-! ## Network device stub (`netdev_stub.c`) -/

/-- Modelled from the spec: the two device states of `netdev_api.h`, a header
that is not part of the sources at hand. -/
inductive netdev_state where
  | NETDEV_STATE_DOWN
  | NETDEV_STATE_UP
  deriving DecidableEq

open netdev_state

/-- The part of `struct network_handle` the stub looks at: the receive
callback, `none` for a `NULL` function pointer, else a name for the
function. -/
structure network_handle where
  net_rx_callback : Option Nat
  deriving DecidableEq

/-- The fields of `struct netdev` that `netdev_open`, `netdev_close` and
`netdev_rx` use; a pointer field is `none` when it is `NULL`. -/
structure netdev where
  state : netdev_state
  rx_q : Option Nat
  net_handle : Option network_handle
  deriving DecidableEq

/-- The part of `struct pbuf` that `netdev_rx` looks at: the payload pointer,
`none` when it is `NULL`. -/
structure pbuf where
  payload : Option Nat
  deriving DecidableEq

/-- One call from the stub into the OS abstraction `g_h.funcs` or into the
network layer. -/
inductive OsOp where
  /-- Call `_h_msleep(ms)`. -/
  | msleep (ms : Nat)
  /-- Call `_h_queue_item(ndev->rx_q, net_buf, HOSTED_BLOCK_MAX)`. -/
  | queue_item (rx_q : Option Nat)
  /-- Call `_h_reset_queue(ndev->rx_q)`. -/
  | reset_queue (rx_q : Nat)
  /-- Call `_h_create_queue(RX_QUEUE_SIZE, sizeof(struct pbuf))`. -/
  | create_queue
  /-- Call `net_handle->net_rx_callback(net_handle)`. -/
  | rx_callback (fn : Nat)
  /-- Call `_h_free(net_buf->payload)`. -/
  | free_payload
  /-- Call `_h_free(net_buf)`. -/
  | free_buf
  deriving DecidableEq

/-- The OS layer: the value the latest call returns, given all calls issued so
far in order.  For `_h_queue_item` 0 means success; for `_h_create_queue` 0
means `NULL` and any other value is the queue created. -/
abbrev Os := List OsOp → Nat

/-- The label `done:` of `netdev_rx` (lines 276-286), reached with a non-`NULL`
`net_buf`. -/
def netdev_rx_done (tr : List OsOp) (net_buf : pbuf) : stm_ret_t × List OsOp :=
  let tr := if net_buf.payload.isSome then tr ++ [OsOp.free_payload] else tr
  let tr := tr ++ [OsOp.free_buf]
  (STM_FAIL, tr ++ [OsOp.msleep 50])

/-- The source function `netdev_rx(dev, net_buf)` (lines 245-287); `tr` holds
the calls issued so far.  The result is `none` when the function dereferences
a `NULL` `net_handle` (line 264). -/
def netdev_rx (os : Os) (tr : List OsOp) (dev : Option netdev) (net_buf : Option pbuf) :
    Option (stm_ret_t × List OsOp) :=
  match dev, net_buf with
  | some ndev, some buf =>
    if ndev.state = NETDEV_STATE_UP then
      let tr := tr ++ [OsOp.queue_item ndev.rx_q]
      if os tr ≠ 0 then
        some (netdev_rx_done tr buf)
      else
        match ndev.net_handle with
        | none => none
        | some handle =>
          let tr := match handle.net_rx_callback with
            | some fn => tr ++ [OsOp.rx_callback fn]
            | none => tr
          some (STM_OK, tr ++ [OsOp.free_buf])
    else
      some (netdev_rx_done tr buf)
  | _, _ => some (STM_FAIL, tr ++ [OsOp.msleep 50])

/-- The source function `netdev_open(ndev)` (lines 47-65): the status, the
device afterwards and the calls issued. -/
def netdev_open (os : Os) (tr : List OsOp) (dev : Option netdev) :
    stm_ret_t × Option netdev × List OsOp :=
  match dev with
  | none => (STM_FAIL, none, tr)
  | some ndev =>
    match ndev.rx_q with
    | some q => (STM_OK, some ndev, tr ++ [OsOp.reset_queue q])
    | none =>
      let tr := tr ++ [OsOp.create_queue]
      if os tr = 0 then
        (STM_FAIL, some ndev, tr)
      else
        (STM_OK, some { ndev with rx_q := some (os tr), state := NETDEV_STATE_UP }, tr)

/-- The source function `netdev_close(ndev)` (lines 72-86): the device
afterwards and the calls issued. -/
def netdev_close (tr : List OsOp) (dev : Option netdev) : Option netdev × List OsOp :=
  match dev with
  | none => (none, tr)
  | some ndev =>
    let tr := tr ++ [OsOp.msleep 200]
    let tr := match ndev.rx_q with
      | some q => tr ++ [OsOp.reset_queue q]
      | none => tr
    (some { ndev with state := NETDEV_STATE_DOWN, net_handle := none }, tr)

/-- An OS layer on which every call returns `v`. -/
def const_os (v : Nat) : Os := fun _ => v

/-- The state a polling result carries. -/
def poll_world : PollResult → World
  | PollResult.ready _ w => w
  | PollResult.timed_out w => w

/-- What the calls of one `sdio_host_get_packet` may ask of a packet buffer
of `size` bytes: a call ends within the buffer, or it is a byte read that ends
within `size` rounded up to a multiple of 4. -/
def within_padded_buffer (size : Nat) (op : BusOp) : Prop :=
  data_end op ≤ size
  ∨ ((∃ func reg data len flags, op = BusOp.read_bytes func reg data len flags)
      ∧ data_end op ≤ (size + 3) / 4 * 4)

/-! ## Arithmetic helpers -/

theorem u32_add_of_lt {a b : Nat} (h : a + b < 4294967296) : u32_add a b = a + b := by
  simp only [u32_add, U32]; omega

theorem u32_sub_of_le {a b : Nat} (ha : a < 4294967296) (h : b ≤ a) : u32_sub a b = a - b := by
  simp only [u32_sub, U32]; split <;> omega

theorem u32_add_lt (a b : Nat) : u32_add a b < 4294967296 := by
  simp only [u32_add, U32]; omega

theorem u32_sub_lt (a b : Nat) : u32_sub a b < 4294967296 := by
  simp only [u32_sub, U32]; split <;> omega

/-- Reduction modulo `m` of a value below `2 * m` is one conditional
subtraction. -/
theorem mod_eq_wrap_once {x m : Nat} (h : x < 2 * m) :
    x % m = if x ≥ m then x - m else x := by
  split
  · rw [Nat.mod_eq_sub_mod (by omega), Nat.mod_eq_of_lt (by omega)]
  · exact Nat.mod_eq_of_lt (by omega)

/-- The decoded length, for a masked register value and a counter below the
modulus. -/
theorem rx_len_decode_eq (c : Config) (rx raw : Nat)
    (hM : c.ESP_RX_BYTE_MAX ≤ 2147483648)
    (hr : (raw % U32) &&& c.ESP_SLAVE_LEN_MASK < c.ESP_RX_BYTE_MAX)
    (hc : rx < c.ESP_RX_BYTE_MAX) :
    rx_len_decode c rx raw
      = (((raw % U32) &&& c.ESP_SLAVE_LEN_MASK) + c.ESP_RX_BYTE_MAX - rx)
          % c.ESP_RX_BYTE_MAX := by
  unfold rx_len_decode
  generalize (raw % U32) &&& c.ESP_SLAVE_LEN_MASK = r at hr ⊢
  simp only
  split
  · rw [u32_add_of_lt (by omega), u32_sub_of_le (by omega) (by omega)]
  · rw [u32_sub_of_le (by omega) (by omega), u32_add_of_lt (by omega)]
    rw [Nat.mod_eq_of_lt (by omega)]
    omega

theorem rx_len_decode_lt_u32 (c : Config) (rx raw : Nat) :
    rx_len_decode c rx raw < 4294967296 := by
  unfold rx_len_decode
  simp only
  split
  · rcases Nat.eq_zero_or_pos c.ESP_RX_BYTE_MAX with h | h
    · rw [h, Nat.mod_zero]; exact u32_sub_lt _ _
    · exact lt_of_le_of_lt (Nat.mod_le _ _) (u32_sub_lt _ _)
  · exact u32_add_lt _ _

/-! ## Length decode -/

/-- C1: when the read of the packet-length register succeeds with value `raw`,
and both the masked value `r = raw & ESP_SLAVE_LEN_MASK` and the receive counter
`rx` are below `M = ESP_RX_BYTE_MAX` (with `M ≤ 2^31`, so that `r + M` fits a
`uint32_t`), `esp_sdio_slave_get_rx_data_size` returns `STM_OK` and stores
exactly `(r + M - rx) mod M`; this holds whether `r ≥ rx` (first branch) or
`r < rx` (second branch, where the value is `M - rx + r`), and the stored
length is below `M`. -/
theorem rx_data_size_decode (c : Config) (bus : Bus) (w : World) (raw : Nat)
    (hM : c.ESP_RX_BYTE_MAX ≤ 2147483648)
    (hread : bus (w.trace ++ [len_reg_read c]) = ⟨STM_OK, raw⟩)
    (hr : (raw % U32) &&& c.ESP_SLAVE_LEN_MASK < c.ESP_RX_BYTE_MAX)
    (hc : w.sdio_esp_rx_bytes < c.ESP_RX_BYTE_MAX) :
    (esp_sdio_slave_get_rx_data_size c bus w).1 = STM_OK
    ∧ (esp_sdio_slave_get_rx_data_size c bus w).2.1
        = some ((((raw % U32) &&& c.ESP_SLAVE_LEN_MASK) + c.ESP_RX_BYTE_MAX
                  - w.sdio_esp_rx_bytes) % c.ESP_RX_BYTE_MAX)
    ∧ (((raw % U32) &&& c.ESP_SLAVE_LEN_MASK) < w.sdio_esp_rx_bytes →
        (esp_sdio_slave_get_rx_data_size c bus w).2.1
          = some (c.ESP_RX_BYTE_MAX - w.sdio_esp_rx_bytes
                    + ((raw % U32) &&& c.ESP_SLAVE_LEN_MASK)))
    ∧ (((raw % U32) &&& c.ESP_SLAVE_LEN_MASK) + c.ESP_RX_BYTE_MAX
          - w.sdio_esp_rx_bytes) % c.ESP_RX_BYTE_MAX < c.ESP_RX_BYTE_MAX := by
  have hres : esp_sdio_slave_get_rx_data_size c bus w
      = (STM_OK, some (rx_len_decode c w.sdio_esp_rx_bytes raw),
          { w with trace := w.trace ++ [len_reg_read c] }) := by
    simp only [esp_sdio_slave_get_rx_data_size, bus_call]
    rw [len_reg_read] at hread
    rw [hread]
    simp [len_reg_read]
  rw [hres, rx_len_decode_eq c _ raw hM hr hc]
  refine ⟨rfl, rfl, ?_, Nat.mod_lt _ (by omega)⟩
  intro hlt
  rw [Nat.mod_eq_of_lt (by omega)]
  exact congrArg some (by omega)

/-- C1, scenario: receive counter 131000, raw value 100, modulus 131072 give
the decoded length 172. -/
theorem rx_data_size_decode_witness :
    (esp_sdio_slave_get_rx_data_size sample_config (const_bus 100)
        ⟨0, 131000, []⟩).2.1 = some 172 :=
  (rx_data_size_decode sample_config (const_bus 100) ⟨0, 131000, []⟩ 100
    (by decide) rfl (by decide) (by decide)).2.1


/-! ## Frame and termination facts for the loops -/

theorem get_rx_data_size_world (c : Config) (bus : Bus) (w : World) :
    (esp_sdio_slave_get_rx_data_size c bus w).2.2
      = { w with trace := w.trace ++ [len_reg_read c] } := by
  simp only [esp_sdio_slave_get_rx_data_size, bus_call, len_reg_read]
  split <;> rfl

theorem get_rx_data_size_len (c : Config) (bus : Bus) (w : World) (l : Nat)
    (h : (esp_sdio_slave_get_rx_data_size c bus w).2.1 = some l) :
    l = rx_len_decode c w.sdio_esp_rx_bytes (bus (w.trace ++ [len_reg_read c])).val := by
  simp only [esp_sdio_slave_get_rx_data_size, bus_call, len_reg_read] at h ⊢
  split at h
  · simp at h
  · simpa using h.symm

/-- The world a polling result carries. -/
theorem get_packet_poll_frame (c : Config) (bus : Bus) (wait_ms : Nat) :
    ∀ (fuel len wait_time : Nat) (w : World) (res : PollResult),
      get_packet_poll c bus wait_ms fuel len wait_time w = some res →
      (∀ l w1, res = PollResult.ready l w1 →
        w1.sdio_esp_rx_bytes = w.sdio_esp_rx_bytes
        ∧ w1.sdio_esp_tx_bytes = w.sdio_esp_tx_bytes
        ∧ 0 < l ∧ l < 4294967296)
      ∧ (∀ w1, res = PollResult.timed_out w1 →
        w1.sdio_esp_rx_bytes = w.sdio_esp_rx_bytes
        ∧ w1.sdio_esp_tx_bytes = w.sdio_esp_tx_bytes) := by
  intro fuel
  induction fuel with
  | zero => intro len wt w res h; simp [get_packet_poll] at h
  | succ n ih =>
    intro len wt w res h
    simp only [get_packet_poll, get_rx_data_size_world] at h
    split at h
    · rename_i hok
      injection h with h
      subst h
      refine ⟨?_, by intro w1 h1; cases h1⟩
      intro l w1 h1
      injection h1 with h1 h2
      subst h1; subst h2
      refine ⟨rfl, rfl, hok.2, ?_⟩
      have hr := hok.1
      cases hlen : (esp_sdio_slave_get_rx_data_size c bus w).2.1 with
      | none =>
        exfalso
        simp only [esp_sdio_slave_get_rx_data_size] at hr hlen
        split at hlen
        · rename_i hne; split at hr <;> simp_all
        · simp at hlen
      | some l0 =>
        simp only []
        rw [get_rx_data_size_len c bus w l0 hlen]
        exact rx_len_decode_lt_u32 _ _ _
    · split at h
      · injection h with h
        subst h
        refine ⟨(by intro l w1 h1; cases h1), ?_⟩
        intro w1 h1
        injection h1 with h1
        subst h1
        exact ⟨rfl, rfl⟩
      · have := ih _ _ _ _ h
        simpa [bus_call] using this

/-- The polling loop ends within `wait_ms - wait_time` iterations (and at
least one). -/
theorem get_packet_poll_total (c : Config) (bus : Bus) (wait_ms : Nat) :
    ∀ (fuel len wait_time : Nat) (w : World),
      0 < fuel → wait_ms ≤ wait_time + fuel →
      ∃ res, get_packet_poll c bus wait_ms fuel len wait_time w = some res := by
  intro fuel
  induction fuel with
  | zero => intro len wt w h; omega
  | succ n ih =>
    intro len wt w _ hle
    simp only [get_packet_poll]
    split
    · exact ⟨_, rfl⟩
    · split
      · exact ⟨_, rfl⟩
      · rename_i hlt
        exact ih _ _ _ (by omega) (by omega)


theorem transfer_loop_frame (chunk : Nat → Nat → BusOp × Nat) (bus : Bus) :
    ∀ (fuel len_remain start_ptr : Nat) (w : World) (res : stm_ret_t × World),
      transfer_loop chunk bus fuel len_remain start_ptr w = some res →
      res.2.sdio_esp_rx_bytes = w.sdio_esp_rx_bytes
      ∧ res.2.sdio_esp_tx_bytes = w.sdio_esp_tx_bytes := by
  intro fuel
  induction fuel with
  | zero => intro l p w res h; simp [transfer_loop] at h
  | succ n ih =>
    intro l p w res h
    simp only [transfer_loop] at h
    split at h
    · injection h with h
      subst h
      exact ⟨rfl, rfl⟩
    · split at h
      · exact (ih _ _ (bus_call bus w (chunk l p).1).2 _ h)
      · injection h with h
        subst h
        exact ⟨rfl, rfl⟩

/-- The skeleton ends within `fuel` iterations when `steps len_remain < fuel`
for a measure `steps` that drops with every chunk that leaves bytes over. -/
theorem transfer_loop_total (chunk : Nat → Nat → BusOp × Nat) (bus : Bus)
    (steps : Nat → Nat)
    (hstep : ∀ l p, l < 4294967296 → u32_sub l (chunk l p).2 ≠ 0 →
      steps (u32_sub l (chunk l p).2) < steps l) :
    ∀ (fuel len_remain start_ptr : Nat) (w : World),
      len_remain < 4294967296 → steps len_remain < fuel →
      ∃ res, transfer_loop chunk bus fuel len_remain start_ptr w = some res := by
  intro fuel
  induction fuel with
  | zero => intro l p w _ h; omega
  | succ n ih =>
    intro l p w hl hf
    simp only [transfer_loop]
    split
    · exact ⟨_, rfl⟩
    · split
      · rename_i hne
        have := hstep l p hl hne
        exact ih _ _ _ (u32_sub_lt _ _) (by omega)
      · exact ⟨_, rfl⟩

theorem get_packet_chunk_len (c : Config) (l p : Nat) :
    (get_packet_chunk c l p).2 = if 512 ≤ l then 512 else l := by
  simp only [get_packet_chunk, ESP_BLOCK_SIZE]
  by_cases h : 512 ≤ l
  · have : l / 512 ≠ 0 := by
      intro h0
      have := Nat.div_add_mod l 512
      have := Nat.mod_lt l (show 512 > 0 by decide)
      omega
    simp [this, h]
  · have : l / 512 = 0 := Nat.div_eq_of_lt (by omega)
    simp [this, h]

theorem send_packet_chunk_len (c : Config) (l p : Nat) :
    (send_packet_chunk c l p).2 = if 512 ≤ l then l / 512 * 512 else l := by
  simp only [send_packet_chunk, ESP_BLOCK_SIZE]
  by_cases h : 512 ≤ l
  · have : l / 512 ≠ 0 := by
      intro h0
      have := Nat.div_add_mod l 512
      have := Nat.mod_lt l (show 512 > 0 by decide)
      omega
    simp [this, h]
  · have : l / 512 = 0 := Nat.div_eq_of_lt (by omega)
    simp [this, h]

/-- The receive transfer loop ends within `len_remain / 512 + 1` iterations. -/
theorem get_packet_transfer_total (c : Config) (bus : Bus)
    (fuel len_remain start_ptr : Nat) (w : World)
    (hl : len_remain < 4294967296) (hf : len_remain / 512 < fuel) :
    ∃ res, get_packet_transfer c bus fuel len_remain start_ptr w = some res := by
  refine transfer_loop_total _ bus (fun l => l / 512) ?_ fuel len_remain start_ptr w hl hf
  intro l p hl hne
  rw [get_packet_chunk_len] at hne ⊢
  split at hne
  · rename_i hge
    simp only [hge, if_true]
    rw [u32_sub_of_le hl hge]
    omega
  · rw [u32_sub_of_le hl (le_refl _)] at hne
    omega

/-- The send transfer loop ends within `len_remain / 512 + 1` iterations. -/
theorem send_packet_transfer_total (c : Config) (bus : Bus)
    (fuel len_remain start_ptr : Nat) (w : World)
    (hl : len_remain < 4294967296) (hf : len_remain / 512 < fuel) :
    ∃ res, send_packet_transfer c bus fuel len_remain start_ptr w = some res := by
  refine transfer_loop_total _ bus (fun l => l / 512) ?_ fuel len_remain start_ptr w hl hf
  intro l p hl hne
  rw [send_packet_chunk_len] at hne ⊢
  have hle : l / 512 * 512 ≤ l := Nat.div_mul_le_self l 512
  split at hne
  · rename_i hge
    simp only [hge, if_true]
    rw [u32_sub_of_le hl hle]
    have h1 : (l - l / 512 * 512) / 512 = 0 := Nat.div_eq_of_lt (by omega)
    have h2 : 0 < l / 512 := Nat.div_pos hge (by decide)
    show (l - l / 512 * 512) / 512 < l / 512
    omega
  · rw [u32_sub_of_le hl (le_refl _)] at hne
    omega

/-! ## The two packet functions as a whole -/

/-- Every call of `sdio_host_get_packet` returns, leaves the transmit counter
alone, and either stores no output length and leaves the receive counter
alone, or returns `STM_OK`, stores a length `L` with `0 < L ≤ size` and
advances the receive counter by `L`. -/
theorem get_packet_cases (c : Config) (bus : Bus) (w : World) (size wait_ms : Nat) :
    ∃ r, sdio_host_get_packet c bus w size wait_ms = some r
      ∧ r.world.sdio_esp_tx_bytes = w.sdio_esp_tx_bytes
      ∧ ((r.out_length = none ∧ r.world.sdio_esp_rx_bytes = w.sdio_esp_rx_bytes)
        ∨ (∃ L, r.ret = STM_OK ∧ r.out_length = some L ∧ 0 < L ∧ L ≤ size
            ∧ L < 4294967296
            ∧ r.world.sdio_esp_rx_bytes = rx_bytes_advance c w.sdio_esp_rx_bytes L)) := by
  unfold sdio_host_get_packet
  by_cases hs : size ≤ 0
  · simp only [hs, if_true]
    exact ⟨_, rfl, rfl, Or.inl ⟨rfl, rfl⟩⟩
  · simp only [hs, if_false]
    obtain ⟨res, hres⟩ := get_packet_poll_total c bus wait_ms (wait_ms + 1) 0 0 w
      (by omega) (by omega)
    have hfr := get_packet_poll_frame c bus wait_ms _ _ _ _ _ hres
    rw [hres]
    cases res with
    | timed_out w1 =>
      obtain ⟨h1, h2⟩ := hfr.2 w1 rfl
      exact ⟨_, rfl, h2, Or.inl ⟨rfl, h1⟩⟩
    | ready len w1 =>
      obtain ⟨h1, h2, h3, h4⟩ := hfr.1 len w1 rfl
      simp only
      by_cases hgt : len > size
      · simp only [hgt, if_true]
        exact ⟨_, rfl, h2, Or.inl ⟨rfl, h1⟩⟩
      · simp only [hgt, if_false]
        obtain ⟨tr, htr⟩ := get_packet_transfer_total c bus (len + 1) len 0 w1 h4
          (by have := Nat.div_le_self len 512; omega)
        have hfr2 := transfer_loop_frame _ bus _ _ _ _ _ htr
        rw [htr]
        obtain ⟨err, w2⟩ := tr
        simp only at hfr2 ⊢
        by_cases he : err ≠ STM_OK
        · rw [if_pos he]
          exact ⟨_, rfl, by simp [hfr2.2, h2], Or.inl ⟨rfl, by simp [hfr2.1, h1]⟩⟩
        · have he2 : err = STM_OK := by simpa using he
          subst he2
          rw [if_neg (not_not.mpr rfl)]
          refine ⟨_, rfl, by simp [hfr2.2, h2], Or.inr ⟨len, rfl, rfl, h3, by omega, h4, ?_⟩⟩
          simp [hfr2.1, h1]

/-- Every call of `sdio_host_send_packet` returns, leaves the receive counter
alone, and either fails and leaves the transmit counter alone, or returns
`STM_OK` and advances the transmit counter by the buffers used. -/
theorem send_packet_cases (c : Config) (bus : Bus) (w : World) (length : Nat) :
    ∃ r, sdio_host_send_packet c bus w length = some r
      ∧ r.2.sdio_esp_rx_bytes = w.sdio_esp_rx_bytes
      ∧ ((r.1 ≠ STM_OK ∧ r.2.sdio_esp_tx_bytes = w.sdio_esp_tx_bytes)
        ∨ (r.1 = STM_OK ∧ r.2.sdio_esp_tx_bytes
            = tx_bytes_advance c w.sdio_esp_tx_bytes (buffer_used (length % U32)))) := by
  unfold sdio_host_send_packet
  have hl : length % U32 < 4294967296 := Nat.mod_lt _ (by decide)
  obtain ⟨tr, htr⟩ := send_packet_transfer_total c bus (length % U32 + 1) (length % U32) 0 w hl
    (by have := Nat.div_le_self (length % U32) 512; omega)
  have hfr := transfer_loop_frame _ bus _ _ _ _ _ htr
  rw [htr]
  obtain ⟨err, w1⟩ := tr
  simp only at hfr ⊢
  by_cases he : err ≠ STM_OK
  · rw [if_pos he]
    exact ⟨_, rfl, hfr.1, Or.inl ⟨he, hfr.2⟩⟩
  · have he2 : err = STM_OK := by simpa using he
    subst he2
    rw [if_neg (not_not.mpr rfl)]
    exact ⟨_, rfl, hfr.1, Or.inr ⟨rfl, by simp [hfr.2]⟩⟩

/-! ## Receive counter -/

theorem rx_bytes_advance_eq (c : Config) (rx L : Nat)
    (hM : c.ESP_RX_BYTE_MAX ≤ 2147483648)
    (hc : rx < c.ESP_RX_BYTE_MAX) (hL : L < c.ESP_RX_BYTE_MAX) :
    rx_bytes_advance c rx L = (rx + L) % c.ESP_RX_BYTE_MAX
    ∧ rx_bytes_advance c rx L < c.ESP_RX_BYTE_MAX
    ∧ rx_bytes_advance c rx L
        = if rx + L ≥ c.ESP_RX_BYTE_MAX then rx + L - c.ESP_RX_BYTE_MAX else rx + L := by
  have h1 : rx_bytes_advance c rx L
      = if rx + L ≥ c.ESP_RX_BYTE_MAX then rx + L - c.ESP_RX_BYTE_MAX else rx + L := by
    unfold rx_bytes_advance
    simp only
    rw [u32_add_of_lt (by omega)]
    split
    · rw [u32_sub_of_le (by omega) (by omega)]
    · rfl
  refine ⟨?_, ?_, h1⟩
  · rw [h1, mod_eq_wrap_once (by omega)]
  · rw [h1]; split <;> omega

theorem get_packets_rx (c : Config) (bus : Bus)
    (hM : c.ESP_RX_BYTE_MAX ≤ 2147483648) :
    ∀ (calls : List (Nat × Nat)) (w : World) (lens : List Nat) (w1 : World),
      get_packets c bus w calls = some (lens, w1) →
      w.sdio_esp_rx_bytes < c.ESP_RX_BYTE_MAX →
      (∀ L ∈ lens, L < c.ESP_RX_BYTE_MAX) →
      w1.sdio_esp_rx_bytes = (w.sdio_esp_rx_bytes + lens.sum) % c.ESP_RX_BYTE_MAX
      ∧ w1.sdio_esp_rx_bytes < c.ESP_RX_BYTE_MAX := by
  intro calls
  induction calls with
  | nil =>
    intro w lens w1 h hc _
    simp only [get_packets, Option.some.injEq, Prod.mk.injEq] at h
    obtain ⟨h1, h2⟩ := h
    subst h1; subst h2
    simp [Nat.mod_eq_of_lt hc, hc]
  | cons call rest ih =>
    intro w lens w1 h hc hlens
    simp only [get_packets] at h
    obtain ⟨r, hr, _, hcases⟩ := get_packet_cases c bus w call.1 call.2
    rw [hr] at h
    obtain ⟨ret, out_length, w2⟩ := r
    cases ret <;> simp only [reduceCtorEq] at h
    cases hrest : get_packets c bus w2 rest with
    | none => simp [hrest] at h
    | some p =>
      obtain ⟨lens2, w3⟩ := p
      simp only [hrest, Option.some.injEq, Prod.mk.injEq] at h
      obtain ⟨h1, h2⟩ := h
      subst h1; subst h2
      rcases hcases with ⟨hnone, hsame⟩ | ⟨L, _, hsome, _, _, _, hadv⟩
      · simp only at hnone hsame
        subst hnone
        simp only [Option.toList, List.nil_append] at hlens ⊢
        have := ih w2 lens2 w3 hrest (by rw [hsame]; exact hc) hlens
        rw [hsame] at this
        exact this
      · simp only at hsome hadv
        subst hsome
        simp only [Option.toList, List.singleton_append, List.mem_cons, forall_eq_or_imp,
          List.sum_cons] at hlens ⊢
        obtain ⟨e1, e2, _⟩ := rx_bytes_advance_eq c w.sdio_esp_rx_bytes L hM hc hlens.1
        have := ih w2 lens2 w3 hrest (by rw [hadv]; exact e2) hlens.2
        rw [hadv, e1] at this
        refine ⟨?_, this.2⟩
        rw [this.1, Nat.mod_add_mod, Nat.add_assoc]

/-- C2: with `M = ESP_RX_BYTE_MAX` (`0 < M ≤ 2^31`), whenever
`sdio_host_get_packet` returns `STM_OK` having stored a length `L < M` and the
receive counter `rx` was below `M`, then `0 < L` and the receive counter
afterwards is `(rx + L) mod M`, is below `M`, and is `rx + L` less one `M` if
that reached `M`.  Hence for a run of calls that all return `STM_OK`, started
with both counters zero, the receive counter at the end is the sum of the
lengths stored, modulo `M`. -/
theorem get_packet_rx_counter (c : Config) (bus : Bus)
    (hM0 : 0 < c.ESP_RX_BYTE_MAX) (hM : c.ESP_RX_BYTE_MAX ≤ 2147483648) :
    (∀ (w : World) (size wait_ms L : Nat) (w1 : World),
      w.sdio_esp_rx_bytes < c.ESP_RX_BYTE_MAX → L < c.ESP_RX_BYTE_MAX →
      sdio_host_get_packet c bus w size wait_ms = some ⟨STM_OK, some L, w1⟩ →
      0 < L
      ∧ w1.sdio_esp_rx_bytes = (w.sdio_esp_rx_bytes + L) % c.ESP_RX_BYTE_MAX
      ∧ w1.sdio_esp_rx_bytes < c.ESP_RX_BYTE_MAX
      ∧ w1.sdio_esp_rx_bytes
          = if w.sdio_esp_rx_bytes + L ≥ c.ESP_RX_BYTE_MAX
            then w.sdio_esp_rx_bytes + L - c.ESP_RX_BYTE_MAX
            else w.sdio_esp_rx_bytes + L)
    ∧ (∀ (calls : List (Nat × Nat)) (lens : List Nat) (w1 : World),
      get_packets c bus initial_world calls = some (lens, w1) →
      (∀ L ∈ lens, L < c.ESP_RX_BYTE_MAX) →
      w1.sdio_esp_rx_bytes = lens.sum % c.ESP_RX_BYTE_MAX
      ∧ w1.sdio_esp_rx_bytes < c.ESP_RX_BYTE_MAX) := by
  constructor
  · intro w size wait_ms L w1 hc hL h
    obtain ⟨r, hr, _, hcases⟩ := get_packet_cases c bus w size wait_ms
    rw [h] at hr
    injection hr with hr
    subst hr
    rcases hcases with ⟨hnone, _⟩ | ⟨L2, _, hsome, hpos, _, _, hadv⟩
    · simp at hnone
    · simp only [Option.some.injEq] at hsome hadv
      subst hsome
      obtain ⟨e1, e2, e3⟩ := rx_bytes_advance_eq c w.sdio_esp_rx_bytes L hM hc hL
      rw [hadv]
      exact ⟨hpos, e1, e2, e3⟩
  · intro calls lens w1 h hlens
    have := get_packets_rx c bus hM calls initial_world lens w1 h hM0 hlens
    simpa [initial_world] using this

/-- C2, scenario: receive counter 0, modulus 131072, register value 1024: the
call stores the length 1024 and leaves the counter at 1024. -/
theorem get_packet_rx_counter_witness :
    sdio_host_get_packet sample_config (const_bus 1024) initial_world 2048 10
      = some ⟨STM_OK, some 1024,
          ⟨0, 1024, [len_reg_read sample_config,
            BusOp.read_blocks 1 128000 (Buf.data 0) 512 2,
            BusOp.read_blocks 1 128512 (Buf.data 512) 512 1]⟩⟩
    ∧ (1024 : Nat) = (0 + 1024) % 131072 :=
  have h : sdio_host_get_packet sample_config (const_bus 1024) initial_world 2048 10
      = some ⟨STM_OK, some 1024,
          ⟨0, 1024, [len_reg_read sample_config,
            BusOp.read_blocks 1 128000 (Buf.data 0) 512 2,
            BusOp.read_blocks 1 128512 (Buf.data 512) 512 1]⟩⟩ := by decide
  ⟨h, ((get_packet_rx_counter sample_config (const_bus 1024) (by decide) (by decide)).1
    initial_world 2048 10 1024 _ (by decide) (by decide) h).2.1⟩


/-- C3: with `M = ESP_RX_BYTE_MAX ≤ 2^31`, a receive counter `rx < M` and
masked register values `r1, r2 < M`: if `sdio_host_get_packet` returns
`STM_OK` having stored the length decoded from `r1` against `rx`, the receive
counter afterwards equals `r1`, and the next length decode, reading `r2`,
yields exactly `(r2 + M - r1) mod M`, whether or not `r2 < r1`. -/
theorem rx_decode_after_receive (c : Config) (bus : Bus) (w w1 : World)
    (size wait_ms raw1 raw2 : Nat)
    (hM : c.ESP_RX_BYTE_MAX ≤ 2147483648)
    (hc : w.sdio_esp_rx_bytes < c.ESP_RX_BYTE_MAX)
    (hr1 : (raw1 % U32) &&& c.ESP_SLAVE_LEN_MASK < c.ESP_RX_BYTE_MAX)
    (hr2 : (raw2 % U32) &&& c.ESP_SLAVE_LEN_MASK < c.ESP_RX_BYTE_MAX)
    (hget : sdio_host_get_packet c bus w size wait_ms
      = some ⟨STM_OK, some (rx_len_decode c w.sdio_esp_rx_bytes raw1), w1⟩)
    (hread : bus (w1.trace ++ [len_reg_read c]) = ⟨STM_OK, raw2⟩) :
    w1.sdio_esp_rx_bytes = (raw1 % U32) &&& c.ESP_SLAVE_LEN_MASK
    ∧ (esp_sdio_slave_get_rx_data_size c bus w1).1 = STM_OK
    ∧ (esp_sdio_slave_get_rx_data_size c bus w1).2.1
        = some ((((raw2 % U32) &&& c.ESP_SLAVE_LEN_MASK) + c.ESP_RX_BYTE_MAX
                  - ((raw1 % U32) &&& c.ESP_SLAVE_LEN_MASK)) % c.ESP_RX_BYTE_MAX) := by
  have hM0 : 0 < c.ESP_RX_BYTE_MAX := by omega
  have hd := rx_len_decode_eq c w.sdio_esp_rx_bytes raw1 hM hr1 hc
  have hdlt : rx_len_decode c w.sdio_esp_rx_bytes raw1 < c.ESP_RX_BYTE_MAX := by
    rw [hd]; exact Nat.mod_lt _ hM0
  have hstep := (get_packet_rx_counter c bus hM0 hM).1 w size wait_ms _ w1 hc hdlt hget
  have hrx : w1.sdio_esp_rx_bytes = (raw1 % U32) &&& c.ESP_SLAVE_LEN_MASK := by
    rw [hstep.2.1, hd, Nat.add_mod_mod]
    have : w.sdio_esp_rx_bytes
        + (((raw1 % U32) &&& c.ESP_SLAVE_LEN_MASK) + c.ESP_RX_BYTE_MAX - w.sdio_esp_rx_bytes)
        = ((raw1 % U32) &&& c.ESP_SLAVE_LEN_MASK) + c.ESP_RX_BYTE_MAX := by omega
    rw [this, Nat.add_mod_right, Nat.mod_eq_of_lt hr1]
  have hnext := rx_data_size_decode c bus w1 raw2 hM hread hr2 (by rw [hrx]; exact hr1)
  rw [hrx] at hnext
  exact ⟨hrx, hnext.1, hnext.2.1⟩

/-- C3, example: counter 131000 and register value 100 give a 172-byte
receive that leaves the counter at 100; the next register value 50, below
100, decodes to `(50 + 131072 - 100) mod 131072 = 131022`. -/
theorem rx_decode_after_receive_witness :
    (esp_sdio_slave_get_rx_data_size sample_config (first_then_bus ⟨STM_OK, 100⟩ ⟨STM_OK, 50⟩)
        ⟨0, 100, [len_reg_read sample_config,
          BusOp.read_bytes 1 128852 (Buf.data 0) 172 0]⟩).2.1
      = some 131022 :=
  (rx_decode_after_receive sample_config (first_then_bus ⟨STM_OK, 100⟩ ⟨STM_OK, 50⟩)
    ⟨0, 131000, []⟩
    ⟨0, 100, [len_reg_read sample_config, BusOp.read_bytes 1 128852 (Buf.data 0) 172 0]⟩
    256 10 100 50 (by decide) (by decide) (by decide) (by decide) (by decide)
    (by decide)).2.2

/-- C10: every call of `sdio_host_get_packet` returns, and when it returns a
status other than `STM_OK` the receive counter is what it was before the
call; every call of `sdio_host_send_packet` returns, and when it returns a
status other than `STM_OK` the transmit counter is what it was before the
call. -/
theorem counters_unchanged_on_failure (c : Config) (bus : Bus) (w : World) :
    (∀ size wait_ms : Nat, ∃ r, sdio_host_get_packet c bus w size wait_ms = some r
      ∧ (r.ret ≠ STM_OK → r.world.sdio_esp_rx_bytes = w.sdio_esp_rx_bytes))
    ∧ (∀ length : Nat, ∃ r, sdio_host_send_packet c bus w length = some r
      ∧ (r.1 ≠ STM_OK → r.2.sdio_esp_tx_bytes = w.sdio_esp_tx_bytes)) := by
  constructor
  · intro size wait_ms
    obtain ⟨r, hr, _, hcases⟩ := get_packet_cases c bus w size wait_ms
    refine ⟨r, hr, ?_⟩
    intro hne
    rcases hcases with ⟨_, hsame⟩ | ⟨L, hok, _⟩
    · exact hsame
    · exact absurd hok hne
  · intro length
    obtain ⟨r, hr, _, hcases⟩ := send_packet_cases c bus w length
    refine ⟨r, hr, ?_⟩
    intro hne
    rcases hcases with ⟨_, hsame⟩ | ⟨hok, _⟩
    · exact hsame
    · exact absurd hok hne

/-- C10, example: with counters 7 (transmit) and 9 (receive), a receive whose
block read fails and a send whose block write fails both return `STM_FAIL`,
and the counters are still 9 and 7. -/
theorem counters_unchanged_on_failure_witness :
    (∃ r, sdio_host_get_packet sample_config
        (first_then_bus ⟨STM_OK, 1033⟩ ⟨STM_FAIL, 0⟩) ⟨7, 9, []⟩ 2048 10 = some r
      ∧ r.ret = STM_FAIL ∧ r.world.sdio_esp_rx_bytes = 9)
    ∧ (∃ r, sdio_host_send_packet sample_config (failing_bus STM_FAIL) ⟨7, 9, []⟩ 1300
        = some r ∧ r.1 = STM_FAIL ∧ r.2.sdio_esp_tx_bytes = 7) := by
  constructor
  · obtain ⟨r, hr, himp⟩ := (counters_unchanged_on_failure sample_config
      (first_then_bus ⟨STM_OK, 1033⟩ ⟨STM_FAIL, 0⟩) ⟨7, 9, []⟩).1 2048 10
    have hv : sdio_host_get_packet sample_config
        (first_then_bus ⟨STM_OK, 1033⟩ ⟨STM_FAIL, 0⟩) ⟨7, 9, []⟩ 2048 10
        = some ⟨STM_FAIL, none, ⟨7, 9, [len_reg_read sample_config,
            BusOp.read_blocks 1 128000 (Buf.data 0) 512 2]⟩⟩ := by decide
    rw [hv] at hr
    injection hr with hr
    subst hr
    exact ⟨_, hv, rfl, himp (by decide)⟩
  · obtain ⟨r, hr, himp⟩ := (counters_unchanged_on_failure sample_config
      (failing_bus STM_FAIL) ⟨7, 9, []⟩).2 1300
    have hv : sdio_host_send_packet sample_config (failing_bus STM_FAIL) ⟨7, 9, []⟩ 1300
        = some (STM_FAIL, ⟨7, 9, [BusOp.write_blocks 1 127724 (Buf.data 0) 1024]⟩) := by
      decide
    rw [hv] at hr
    injection hr with hr
    subst hr
    exact ⟨_, hv, rfl, himp (by decide)⟩

/-! ## Receive timeout -/

theorem get_rx_data_size_idle (c : Config) (bus : Bus) (w : World)
    (hbus : ∀ tr, (bus tr).ret = STM_OK
      ∧ rx_len_decode c w.sdio_esp_rx_bytes (bus tr).val = 0) :
    esp_sdio_slave_get_rx_data_size c bus w
      = (STM_OK, some 0, { w with trace := w.trace ++ [len_reg_read c] }) := by
  simp only [esp_sdio_slave_get_rx_data_size, bus_call, len_reg_read]
  rw [if_neg (not_not.mpr (hbus _).1), (hbus _).2]

theorem idle_polls_count (c : Config) (k : Nat) :
    (idle_polls c k).count (len_reg_read c) = k + 1
    ∧ (idle_polls c k).count (BusOp.hard_delay 1) = k := by
  induction k with
  | zero => simp [idle_polls, len_reg_read]
  | succ k ih =>
    obtain ⟨h1, h2⟩ := ih
    constructor
    · simp only [idle_polls, List.count_cons, h1]
      simp [len_reg_read]
    · simp only [idle_polls, List.count_cons, h2]
      simp [len_reg_read]

/-- On a bus whose length register never shows data, the polling loop gives
up after `wait_ms - wait_time` reads (at least one). -/
theorem get_packet_poll_idle (c : Config) (bus : Bus) (wait_ms rx : Nat)
    (hbus : ∀ tr, (bus tr).ret = STM_OK ∧ rx_len_decode c rx (bus tr).val = 0) :
    ∀ (fuel wait_time : Nat) (w : World),
      w.sdio_esp_rx_bytes = rx → 0 < fuel → wait_ms ≤ wait_time + fuel →
      get_packet_poll c bus wait_ms fuel 0 wait_time w
        = some (PollResult.timed_out
            { w with trace := w.trace ++ idle_polls c (wait_ms - wait_time - 1) }) := by
  intro fuel
  induction fuel with
  | zero => intro wt w _ h; omega
  | succ n ih =>
    intro wt w hrx _ hle
    subst hrx
    simp only [get_packet_poll, get_rx_data_size_idle c bus w hbus]
    rw [if_neg (by simp)]
    by_cases hto : wt + 1 ≥ wait_ms
    · rw [if_pos hto]
      have : wait_ms - wt - 1 = 0 := by omega
      rw [this]
      rfl
    · rw [if_neg hto]
      have hk : wait_ms - wt - 1 = (wait_ms - (wt + 1) - 1) + 1 := by omega
      rw [ih (wt + 1) _ (by simp [bus_call]) (by omega) (by omega), hk]
      simp [bus_call, idle_polls]

/-- C9 (as the code has it): for `wait_ms = n ≥ 1`, a non-empty buffer and a
bus on which every read of the length register succeeds and decodes to 0,
`sdio_host_get_packet` returns `STM_FAIL_TIMEOUT` without storing an output
length and with both counters as they were; up to then it has read the length
register exactly `n` times with one `hard_delay(1)` between each two reads,
that is `n - 1` delays of 1 ms. -/
theorem get_packet_timeout (c : Config) (bus : Bus) (w : World) (size n : Nat)
    (hsize : 0 < size) (hn : 1 ≤ n)
    (hbus : ∀ tr, (bus tr).ret = STM_OK
      ∧ rx_len_decode c w.sdio_esp_rx_bytes (bus tr).val = 0) :
    sdio_host_get_packet c bus w size n
      = some ⟨STM_FAIL_TIMEOUT, none, { w with trace := w.trace ++ idle_polls c (n - 1) }⟩
    ∧ (idle_polls c (n - 1)).count (len_reg_read c) = n
    ∧ (idle_polls c (n - 1)).count (BusOp.hard_delay 1) = n - 1 := by
  refine ⟨?_, ?_, (idle_polls_count c (n - 1)).2⟩
  · unfold sdio_host_get_packet
    rw [if_neg (by omega),
      get_packet_poll_idle c bus n w.sdio_esp_rx_bytes hbus (n + 1) 0 w rfl (by omega) (by omega)]
    simp only [Nat.sub_zero]
  · rw [(idle_polls_count c (n - 1)).1]
    omega

/-- C9, scenario `wait_ms = 5` on a bus that never reports data: five reads of
the length register and four delays, then `STM_FAIL_TIMEOUT`. -/
theorem get_packet_timeout_witness :
    sdio_host_get_packet sample_config (const_bus 0) initial_world 64 5
      = some ⟨STM_FAIL_TIMEOUT, none,
          { initial_world with trace := initial_world.trace ++ idle_polls sample_config 4 }⟩
    ∧ (idle_polls sample_config 4).count (len_reg_read sample_config) = 5
    ∧ (idle_polls sample_config 4).count (BusOp.hard_delay 1) = 4 :=
  get_packet_timeout sample_config (const_bus 0) initial_world 64 5 (by decide) (by decide)
    (fun _ => ⟨rfl, (by decide : rx_len_decode sample_config 0 0 = 0)⟩)

/-- C9 as stated fails at `wait_ms = 5`: on a bus that never reports data the
call returns `STM_FAIL_TIMEOUT` after four calls of `hard_delay(1)`, not
five. -/
theorem get_packet_timeout_delays_counterexample :
    (sdio_host_get_packet sample_config (const_bus 0) initial_world 64 5).map
        (fun r => (r.ret, r.world.trace.count (BusOp.hard_delay 1)))
      = some (STM_FAIL_TIMEOUT, 4)
    ∧ ¬ (sdio_host_get_packet sample_config (const_bus 0) initial_world 64 5).map
        (fun r => (r.ret, r.world.trace.count (BusOp.hard_delay 1)))
      = some (STM_FAIL_TIMEOUT, 5) := by
  decide

/-! ## Send: block splitting -/

set_option maxRecDepth 8000 in
/-- Below 512, the C expression `(x + 3) & (~3)` rounds up to a multiple of
4. -/
theorem align4_eq_round_up : ∀ x, x < 512 → align4 x = (x + 3) / 4 * 4 := by
  decide

theorem buffer_used_eq (L : Nat) (hL : L < 2147483648) :
    buffer_used L = (L + 511) / 512 := by
  simp only [buffer_used, ESP_BLOCK_SIZE]
  rw [u32_add_of_lt (by omega), u32_sub_of_le (by omega) (by omega)]
  rfl

/-- C6: for `0 < L < 2^31` on a bus where every call succeeds,
`sdio_host_send_packet` returns `STM_OK` after at most two transfers: if
`L / 512 > 0`, a block write of `L / 512 * 512` bytes from buffer offset 0 at
bus address `ESP_SLAVE_CMD53_END_ADDR - L` (32-bit subtraction); then, if
`L mod 512 ≠ 0`, a byte write of `L mod 512` rounded up to a multiple of 4,
from buffer offset `L / 512 * 512`, at address `ESP_SLAVE_CMD53_END_ADDR -
L mod 512`.  The two unpadded lengths add up to `L`, and `(L + 511) / 512`,
the least number of 512-byte buffers that hold `L` bytes, is added to the
transmit counter: the counter afterwards is the 32-bit sum of that number and
the counter before, taken less `ESP_TX_BUFFER_MAX` if it had reached it; for a
counter below `2^31` that is the counter plus `(L + 511) / 512`, less
`ESP_TX_BUFFER_MAX` if it had reached it.  When `L` does not exceed the end
address the 32-bit subtractions are the plain differences. -/
theorem send_packet_two_chunks (c : Config) (bus : Bus) (w : World) (L : Nat)
    (hpos : 0 < L) (hL : L < 2147483648) (hbus : ∀ tr, (bus tr).ret = STM_OK) :
    sdio_host_send_packet c bus w L = some (STM_OK,
      { sdio_esp_tx_bytes :=
          u32_add (if w.sdio_esp_tx_bytes ≥ c.ESP_TX_BUFFER_MAX
                    then u32_sub w.sdio_esp_tx_bytes c.ESP_TX_BUFFER_MAX
                    else w.sdio_esp_tx_bytes) ((L + 511) / 512)
        sdio_esp_rx_bytes := w.sdio_esp_rx_bytes
        trace := w.trace
          ++ (if 0 < L / 512 then
                [BusOp.write_blocks SDIO_FUNC_1 (u32_sub c.ESP_SLAVE_CMD53_END_ADDR L)
                  (Buf.data 0) (L / 512 * 512)]
              else [])
          ++ (if L % 512 ≠ 0 then
                [BusOp.write_bytes SDIO_FUNC_1 (u32_sub c.ESP_SLAVE_CMD53_END_ADDR (L % 512))
                  (Buf.data (L / 512 * 512)) ((L % 512 + 3) / 4 * 4)]
              else []) })
    ∧ L / 512 * 512 + L % 512 = L
    ∧ L ≤ (L + 511) / 512 * 512 ∧ (L + 511) / 512 * 512 < L + 512
    ∧ (c.ESP_SLAVE_CMD53_END_ADDR < 4294967296 → L ≤ c.ESP_SLAVE_CMD53_END_ADDR →
        u32_sub c.ESP_SLAVE_CMD53_END_ADDR L = c.ESP_SLAVE_CMD53_END_ADDR - L
        ∧ u32_sub c.ESP_SLAVE_CMD53_END_ADDR (L % 512)
            = c.ESP_SLAVE_CMD53_END_ADDR - L % 512)
    ∧ (∀ w1 : World, sdio_host_send_packet c bus w L = some (STM_OK, w1) →
        (w.sdio_esp_tx_bytes < c.ESP_TX_BUFFER_MAX → w.sdio_esp_tx_bytes < 2147483648 →
          w1.sdio_esp_tx_bytes = w.sdio_esp_tx_bytes + (L + 511) / 512)
        ∧ (c.ESP_TX_BUFFER_MAX ≤ w.sdio_esp_tx_bytes → w.sdio_esp_tx_bytes < 2147483648 →
          w1.sdio_esp_tx_bytes
            = w.sdio_esp_tx_bytes - c.ESP_TX_BUFFER_MAX + (L + 511) / 512)) := by
  have hdm := Nat.div_add_mod L 512
  have hmlt := Nat.mod_lt L (show 512 > 0 by decide)
  have hbu : (L + 511) / 512 ≤ 4194304 := by omega
  refine ⟨?_, by omega, by omega, by omega, ?_, ?_⟩
  rotate_left
  · intro hE hle
    exact ⟨u32_sub_of_le hE hle, u32_sub_of_le hE (by omega)⟩
  · intro w1 hw1
    obtain ⟨r, hr, _, hcases⟩ := send_packet_cases c bus w L
    rw [hw1] at hr
    injection hr with hr
    subst hr
    rcases hcases with ⟨hne, _⟩ | ⟨_, hadv⟩
    · exact absurd rfl hne
    · simp only at hadv
      have hLU : L % U32 = L := Nat.mod_eq_of_lt (by simp only [U32]; omega)
      rw [hLU, buffer_used_eq L hL] at hadv
      rw [hadv]
      unfold tx_bytes_advance
      simp only
      constructor
      · intro hlt h31
        rw [if_neg (by omega), u32_add_of_lt (by omega)]
      · intro hge h31
        rw [if_pos hge, u32_sub_of_le (by omega) hge, u32_add_of_lt (by omega)]
  · have hLU : L % U32 = L := Nat.mod_eq_of_lt (by simp only [U32]; omega)
    obtain ⟨k, hk⟩ : ∃ k, L + 1 = k + 2 := ⟨L - 1, by omega⟩
    unfold sdio_host_send_packet send_packet_transfer tx_bytes_advance
    rw [hLU, buffer_used_eq L hL, hk]
    by_cases hge : 512 ≤ L
    · have hq : 0 < L / 512 := Nat.div_pos hge (by decide)
      have hchunk : send_packet_chunk c L 0
          = (BusOp.write_blocks SDIO_FUNC_1 (u32_sub c.ESP_SLAVE_CMD53_END_ADDR L)
              (Buf.data 0) (L / 512 * 512), L / 512 * 512) := by
        simp only [send_packet_chunk, ESP_BLOCK_SIZE]
        rw [if_pos (by omega)]
      have hrem : u32_sub L (L / 512 * 512) = L % 512 := by
        rw [u32_sub_of_le (by omega) (by omega)]; omega
      by_cases hr : L % 512 = 0
      · simp only [transfer_loop, hchunk, hrem, hbus, bus_call]
        simp [hr, hq]
      · have hchunk2 : send_packet_chunk c (L % 512) (0 + L / 512 * 512)
            = (BusOp.write_bytes SDIO_FUNC_1 (u32_sub c.ESP_SLAVE_CMD53_END_ADDR (L % 512))
                (Buf.data (L / 512 * 512)) ((L % 512 + 3) / 4 * 4), L % 512) := by
          simp only [send_packet_chunk, ESP_BLOCK_SIZE]
          rw [if_neg (by rw [Nat.div_eq_of_lt hmlt]; simp),
            align4_eq_round_up _ hmlt, Nat.zero_add]
        have hrem2 : u32_sub (L % 512) (L % 512) = 0 := by
          rw [u32_sub_of_le (by omega) (le_refl _)]; omega
        simp only [transfer_loop, hchunk, hrem, hchunk2, hrem2, hbus, bus_call]
        simp [hr, hq]
    · have hq : L / 512 = 0 := Nat.div_eq_of_lt (by omega)
      have hm : L % 512 = L := Nat.mod_eq_of_lt (by omega)
      have hchunk : send_packet_chunk c L 0
          = (BusOp.write_bytes SDIO_FUNC_1 (u32_sub c.ESP_SLAVE_CMD53_END_ADDR L)
              (Buf.data 0) ((L + 3) / 4 * 4), L) := by
        simp only [send_packet_chunk, ESP_BLOCK_SIZE]
        rw [if_neg (by rw [hq]; simp), align4_eq_round_up _ (by omega)]
      have hrem : u32_sub L L = 0 := by
        rw [u32_sub_of_le (by omega) (le_refl _)]; omega
      simp only [transfer_loop, hchunk, hrem, hbus, bus_call]
      simp [hq, hm]
      rw [if_neg (by omega)]

/-- C6, scenario: a 1300-byte send is a block write of 1024 bytes and a
276-byte remainder, and uses 3 buffers: a transmit counter of 0 becomes 3, a
counter of 5 becomes 8, and a counter of 4100, which has reached the modulus
4096, becomes `4100 - 4096 + 3 = 7`. -/
theorem send_packet_two_chunks_witness :
    sdio_host_send_packet sample_config (const_bus 0) initial_world 1300
      = some (STM_OK, ⟨3, 0,
          [BusOp.write_blocks 1 127724 (Buf.data 0) 1024,
           BusOp.write_bytes 1 128748 (Buf.data 1024) 276]⟩)
    ∧ sdio_host_send_packet sample_config (const_bus 0) ⟨5, 0, []⟩ 1300
      = some (STM_OK, ⟨8, 0,
          [BusOp.write_blocks 1 127724 (Buf.data 0) 1024,
           BusOp.write_bytes 1 128748 (Buf.data 1024) 276]⟩)
    ∧ sdio_host_send_packet sample_config (const_bus 0) ⟨4100, 0, []⟩ 1300
      = some (STM_OK, ⟨7, 0,
          [BusOp.write_blocks 1 127724 (Buf.data 0) 1024,
           BusOp.write_bytes 1 128748 (Buf.data 1024) 276]⟩) :=
  ⟨(send_packet_two_chunks sample_config (const_bus 0) initial_world 1300
      (by decide) (by decide) (fun _ => rfl)).1,
   (send_packet_two_chunks sample_config (const_bus 0) ⟨5, 0, []⟩ 1300
      (by decide) (by decide) (fun _ => rfl)).1,
   (send_packet_two_chunks sample_config (const_bus 0) ⟨4100, 0, []⟩ 1300
      (by decide) (by decide) (fun _ => rfl)).1⟩

/-! ## Transmit counter -/

theorem tx_bytes_advance_step (c : Config) (tx used : Nat)
    (hT0 : 0 < c.ESP_TX_BUFFER_MAX) (hT : c.ESP_TX_BUFFER_MAX ≤ 2147483648)
    (htx : tx < 2 * c.ESP_TX_BUFFER_MAX) (hu : used ≤ c.ESP_TX_BUFFER_MAX) :
    tx_bytes_advance c tx used % c.ESP_TX_BUFFER_MAX = (tx + used) % c.ESP_TX_BUFFER_MAX
    ∧ tx_bytes_advance c tx used < 2 * c.ESP_TX_BUFFER_MAX := by
  unfold tx_bytes_advance
  simp only
  by_cases h : tx ≥ c.ESP_TX_BUFFER_MAX
  · rw [if_pos h, u32_sub_of_le (by omega) h, u32_add_of_lt (by omega)]
    refine ⟨?_, by omega⟩
    have : tx + used = tx - c.ESP_TX_BUFFER_MAX + used + c.ESP_TX_BUFFER_MAX := by omega
    rw [this, Nat.add_mod_right]
  · rw [if_neg h, u32_add_of_lt (by omega)]
    exact ⟨rfl, by omega⟩

theorem send_packets_tx (c : Config) (bus : Bus)
    (hT0 : 0 < c.ESP_TX_BUFFER_MAX) (hT : c.ESP_TX_BUFFER_MAX ≤ 2147483648) :
    ∀ (lengths : List Nat) (w w1 : World),
      send_packets c bus w lengths = some w1 →
      w.sdio_esp_tx_bytes < 2 * c.ESP_TX_BUFFER_MAX →
      (∀ L ∈ lengths, L < 2147483648 ∧ (L + 511) / 512 ≤ c.ESP_TX_BUFFER_MAX) →
      w1.sdio_esp_tx_bytes % c.ESP_TX_BUFFER_MAX
        = (w.sdio_esp_tx_bytes + (lengths.map (fun L => (L + 511) / 512)).sum)
            % c.ESP_TX_BUFFER_MAX
      ∧ w1.sdio_esp_tx_bytes < 2 * c.ESP_TX_BUFFER_MAX := by
  intro lengths
  induction lengths with
  | nil =>
    intro w w1 h htx _
    simp only [send_packets, Option.some.injEq] at h
    subst h
    simpa using htx
  | cons L rest ih =>
    intro w w1 h htx hls
    simp only [send_packets] at h
    obtain ⟨r, hr, _, hcases⟩ := send_packet_cases c bus w L
    rw [hr] at h
    obtain ⟨ret, w2⟩ := r
    cases ret <;> simp only [reduceCtorEq] at h
    simp only [List.mem_cons, forall_eq_or_imp] at hls
    obtain ⟨⟨hL, hu⟩, hrest⟩ := hls
    rcases hcases with ⟨hne, _⟩ | ⟨_, hadv⟩
    · exact absurd rfl hne
    · simp only at hadv
      have hLU : L % U32 = L := Nat.mod_eq_of_lt (by simp only [U32]; omega)
      rw [hLU, buffer_used_eq L hL] at hadv
      obtain ⟨e1, e2⟩ := tx_bytes_advance_step c w.sdio_esp_tx_bytes _ hT0 hT htx hu
      have := ih w2 w1 h (by rw [hadv]; exact e2) hrest
      refine ⟨?_, this.2⟩
      rw [this.1, List.map_cons, List.sum_cons, Nat.add_mod, hadv, e1, ← Nat.add_mod,
        Nat.add_assoc]

/-- For a counter below twice the modulus, the update of the transmit counter
is the counter reduced modulo the modulus plus the buffers used. -/
theorem tx_bytes_advance_exact (c : Config) (tx used : Nat)
    (hT0 : 0 < c.ESP_TX_BUFFER_MAX) (hT : c.ESP_TX_BUFFER_MAX ≤ 2147483648)
    (htx : tx < 2 * c.ESP_TX_BUFFER_MAX) (hu : used ≤ c.ESP_TX_BUFFER_MAX) :
    tx_bytes_advance c tx used = tx % c.ESP_TX_BUFFER_MAX + used := by
  have _ := hT0
  rw [mod_eq_wrap_once htx]
  unfold tx_bytes_advance
  simp only
  by_cases h : tx ≥ c.ESP_TX_BUFFER_MAX
  · rw [if_pos h, if_pos h, u32_sub_of_le (by omega) h, u32_add_of_lt (by omega)]
  · rw [if_neg h, if_neg h, u32_add_of_lt (by omega)]

/-- A run that ends with the send of `last` is the run of the earlier sends
followed by that one send. -/
theorem send_packets_append (c : Config) (bus : Bus) (last : Nat) :
    ∀ (earlier : List Nat) (w w1 : World),
      send_packets c bus w (earlier ++ [last]) = some w1 →
      ∃ w0, send_packets c bus w earlier = some w0
        ∧ sdio_host_send_packet c bus w0 last = some (STM_OK, w1) := by
  intro earlier
  induction earlier with
  | nil =>
    intro w w1 h
    simp only [List.nil_append, send_packets] at h
    obtain ⟨r, hr, _, _⟩ := send_packet_cases c bus w last
    rw [hr] at h
    obtain ⟨ret, w2⟩ := r
    cases ret <;> simp only [reduceCtorEq] at h
    simp only [Option.some.injEq] at h
    subst h
    exact ⟨w, rfl, hr⟩
  | cons L rest ih =>
    intro w w1 h
    simp only [List.cons_append, send_packets] at h
    obtain ⟨r, hr, _, _⟩ := send_packet_cases c bus w L
    rw [hr] at h
    obtain ⟨ret, w2⟩ := r
    cases ret <;> simp only [reduceCtorEq] at h
    obtain ⟨w0, h0, hlast⟩ := ih w2 w1 h
    refine ⟨w0, ?_, hlast⟩
    simp only [send_packets, hr]
    exact h0

/-- C8 (as the code has it): with `T = ESP_TX_BUFFER_MAX` (`0 < T ≤ 2^31`),
after a run of `sdio_host_send_packet` calls that all return `STM_OK`,
started with both counters zero, with lengths below `2^31` that each use at
most `T` buffers, the transmit counter is congruent modulo `T` to the sum of
`(Li + 511) / 512` and is below `2 * T`; it equals the sum modulo `T` exactly
when it is below `T`.  The counter is reduced at the start of a send, before
the addition: after a run that ends with the send of `last`, it is the sum
over the earlier sends modulo `T`, plus `(last + 511) / 512`, so it is at
least `T` right after a send that makes that total reach or cross `T`, and
below `T` otherwise. -/
theorem send_packets_tx_counter (c : Config) (bus : Bus) (lengths : List Nat) (w1 : World)
    (hT0 : 0 < c.ESP_TX_BUFFER_MAX) (hT : c.ESP_TX_BUFFER_MAX ≤ 2147483648)
    (hrun : send_packets c bus initial_world lengths = some w1)
    (hls : ∀ L ∈ lengths, L < 2147483648 ∧ (L + 511) / 512 ≤ c.ESP_TX_BUFFER_MAX) :
    w1.sdio_esp_tx_bytes % c.ESP_TX_BUFFER_MAX
      = (lengths.map (fun L => (L + 511) / 512)).sum % c.ESP_TX_BUFFER_MAX
    ∧ w1.sdio_esp_tx_bytes < 2 * c.ESP_TX_BUFFER_MAX
    ∧ (w1.sdio_esp_tx_bytes < c.ESP_TX_BUFFER_MAX ↔
        w1.sdio_esp_tx_bytes
          = (lengths.map (fun L => (L + 511) / 512)).sum % c.ESP_TX_BUFFER_MAX)
    ∧ (∀ (earlier : List Nat) (last : Nat), lengths = earlier ++ [last] →
        w1.sdio_esp_tx_bytes
          = (earlier.map (fun L => (L + 511) / 512)).sum % c.ESP_TX_BUFFER_MAX
              + (last + 511) / 512
        ∧ ((earlier.map (fun L => (L + 511) / 512)).sum % c.ESP_TX_BUFFER_MAX
              + (last + 511) / 512 ≥ c.ESP_TX_BUFFER_MAX →
            c.ESP_TX_BUFFER_MAX ≤ w1.sdio_esp_tx_bytes
            ∧ w1.sdio_esp_tx_bytes
                ≠ (lengths.map (fun L => (L + 511) / 512)).sum % c.ESP_TX_BUFFER_MAX)
        ∧ ((earlier.map (fun L => (L + 511) / 512)).sum % c.ESP_TX_BUFFER_MAX
              + (last + 511) / 512 < c.ESP_TX_BUFFER_MAX →
            w1.sdio_esp_tx_bytes < c.ESP_TX_BUFFER_MAX)) := by
  have h := send_packets_tx c bus hT0 hT lengths initial_world w1 hrun
    (by simp only [initial_world]; omega) hls
  simp only [initial_world, Nat.zero_add] at h
  have hiff : w1.sdio_esp_tx_bytes < c.ESP_TX_BUFFER_MAX ↔
      w1.sdio_esp_tx_bytes
        = (lengths.map (fun L => (L + 511) / 512)).sum % c.ESP_TX_BUFFER_MAX := by
    constructor
    · intro hlt
      rw [← h.1, Nat.mod_eq_of_lt hlt]
    · intro heq
      rw [heq]
      exact Nat.mod_lt _ hT0
  refine ⟨h.1, h.2, hiff, ?_⟩
  intro earlier last hsplit
  subst hsplit
  obtain ⟨w0, h0, hlast⟩ := send_packets_append c bus last earlier initial_world w1 hrun
  have hls0 : ∀ L ∈ earlier, L < 2147483648 ∧ (L + 511) / 512 ≤ c.ESP_TX_BUFFER_MAX :=
    fun L hL => hls L (List.mem_append_left _ hL)
  obtain ⟨hlast31, hlastT⟩ := hls last (List.mem_append_right _ (List.mem_singleton.mpr rfl))
  have hw0 := send_packets_tx c bus hT0 hT earlier initial_world w0 h0
    (by simp only [initial_world]; omega) hls0
  simp only [initial_world, Nat.zero_add] at hw0
  obtain ⟨r, hr, _, hcases⟩ := send_packet_cases c bus w0 last
  rw [hlast] at hr
  injection hr with hr
  subst hr
  have hexact : w1.sdio_esp_tx_bytes
      = (earlier.map (fun L => (L + 511) / 512)).sum % c.ESP_TX_BUFFER_MAX
          + (last + 511) / 512 := by
    rcases hcases with ⟨hne, _⟩ | ⟨_, hadv⟩
    · exact absurd rfl hne
    · simp only at hadv
      have hLU : last % U32 = last := Nat.mod_eq_of_lt (by simp only [U32]; omega)
      rw [hLU, buffer_used_eq last hlast31] at hadv
      rw [hadv, tx_bytes_advance_exact c _ _ hT0 hT hw0.2 hlastT, hw0.1]
  refine ⟨hexact, ?_, ?_⟩
  · intro hcross
    have hge : c.ESP_TX_BUFFER_MAX ≤ w1.sdio_esp_tx_bytes := by omega
    refine ⟨hge, ?_⟩
    intro heq
    have := hiff.mpr heq
    omega
  · intro hbelow
    omega

/-- C8, examples: sends of 1300 and 1536 bytes leave the transmit counter at
`3 + 3 = 6`, below the modulus 4096; sends using 4095 and then 2 buffers
leave it at `4095 + 2 = 4097`, at least the modulus, right after the send
that crosses it. -/
theorem send_packets_tx_counter_witness :
    (send_packets sample_config (const_bus 0) initial_world [1300, 1536]
      = some ⟨6, 0, [BusOp.write_blocks 1 127724 (Buf.data 0) 1024,
          BusOp.write_bytes 1 128748 (Buf.data 1024) 276,
          BusOp.write_blocks 1 127488 (Buf.data 0) 1536]⟩
    ∧ 6 % sample_config.ESP_TX_BUFFER_MAX
        = ([1300, 1536].map (fun L => (L + 511) / 512)).sum % sample_config.ESP_TX_BUFFER_MAX)
    ∧ (send_packets sample_config (const_bus 0) initial_world [2096640, 1024]
      = some ⟨4097, 0, [BusOp.write_blocks 1 4292999680 (Buf.data 0) 2096640,
          BusOp.write_blocks 1 128000 (Buf.data 0) 1024]⟩
    ∧ (4097 : Nat)
        = ([2096640].map (fun L => (L + 511) / 512)).sum % sample_config.ESP_TX_BUFFER_MAX
            + (1024 + 511) / 512
    ∧ sample_config.ESP_TX_BUFFER_MAX ≤ 4097) :=
  have h : send_packets sample_config (const_bus 0) initial_world [1300, 1536]
      = some ⟨6, 0, [BusOp.write_blocks 1 127724 (Buf.data 0) 1024,
          BusOp.write_bytes 1 128748 (Buf.data 1024) 276,
          BusOp.write_blocks 1 127488 (Buf.data 0) 1536]⟩ := by decide
  have h2 : send_packets sample_config (const_bus 0) initial_world [2096640, 1024]
      = some ⟨4097, 0, [BusOp.write_blocks 1 4292999680 (Buf.data 0) 2096640,
          BusOp.write_blocks 1 128000 (Buf.data 0) 1024]⟩ := by decide
  ⟨⟨h, (send_packets_tx_counter sample_config (const_bus 0) [1300, 1536] _
      (by decide) (by decide) h (by decide)).1⟩,
   h2,
   ((send_packets_tx_counter sample_config (const_bus 0) [2096640, 1024] _
      (by decide) (by decide) h2 (by decide)).2.2.2 [2096640] 1024 rfl).1,
   (((send_packets_tx_counter sample_config (const_bus 0) [2096640, 1024] _
      (by decide) (by decide) h2 (by decide)).2.2.2 [2096640] 1024 rfl).2.1
        (by decide)).1⟩

/-- C8 as stated fails: with a transmit modulus of 4096, two successful sends
using 4095 and 2 buffers leave the transmit counter at 4097, which is neither
below 4096 nor equal to `(4095 + 2) mod 4096 = 1`. -/
theorem send_packets_tx_counter_counterexample :
    (send_packets sample_config (const_bus 0) initial_world [2096640, 1024]).map
        (fun w => w.sdio_esp_tx_bytes) = some 4097
    ∧ ¬ (4097 < sample_config.ESP_TX_BUFFER_MAX)
    ∧ ¬ (4097 = ([2096640, 1024].map (fun L => (L + 511) / 512)).sum
          % sample_config.ESP_TX_BUFFER_MAX) := by
  decide

/-! ## Where the code departs from its documentation -/

/-- C4: with a 4-byte buffer, a pending length of 4 is received (`STM_OK`,
output length 4), but a pending length of 5 makes `sdio_host_get_packet`
return `STM_OK` as well, with no output length stored, no data transferred
and the receive counter unchanged, where its header comment promises an error
status. -/
theorem get_packet_oversize_returns_ok :
    sdio_host_get_packet sample_config (const_bus 4) initial_world 4 10
      = some ⟨STM_OK, some 4, ⟨0, 4, [len_reg_read sample_config,
          BusOp.read_bytes 1 129020 (Buf.data 0) 4 0]⟩⟩
    ∧ sdio_host_get_packet sample_config (const_bus 5) initial_world 4 10
      = some ⟨STM_OK, none, ⟨0, 0, [len_reg_read sample_config]⟩⟩ := by
  decide

/-- C5: for a pending length of 1300 the first iteration of the receive loop
asks `sdio_driver_read_blocks` for 2 blocks of 512 bytes (1024 bytes) while it
advances the output pointer and `len_remain` by 512 only; the next block read
therefore starts at buffer offset 512, and the transfers of the whole call
ask for 1024 + 512 + 276 = 1812 bytes, not 1300. -/
theorem get_packet_block_read_overlap :
    get_packet_chunk sample_config 1300 0
      = (BusOp.read_blocks 1 127724 (Buf.data 0) 512 2, 512)
    ∧ data_bytes (BusOp.read_blocks 1 127724 (Buf.data 0) 512 2) = 1024
    ∧ sdio_host_get_packet sample_config (const_bus 1300) initial_world 2048 10
      = some ⟨STM_OK, some 1300, ⟨0, 1300, [len_reg_read sample_config,
          BusOp.read_blocks 1 127724 (Buf.data 0) 512 2,
          BusOp.read_blocks 1 128236 (Buf.data 512) 512 1,
          BusOp.read_bytes 1 128748 (Buf.data 1024) 276 0]⟩⟩
    ∧ ([len_reg_read sample_config,
          BusOp.read_blocks 1 127724 (Buf.data 0) 512 2,
          BusOp.read_blocks 1 128236 (Buf.data 512) 512 1,
          BusOp.read_bytes 1 128748 (Buf.data 1024) 276 0].map data_bytes).sum = 1812 := by
  decide

/-- C7: a failed read of the packet-length register does not end
`sdio_host_get_packet`.  With `wait_ms = 3` on a bus where every call fails
with `STM_FAIL`, the register is read three times, with two delays, and the
call returns `STM_FAIL_TIMEOUT`; on a bus where only the first read fails, the
read is repeated after a delay and the call goes on to receive the 8 pending
bytes and returns `STM_OK`. -/
theorem get_packet_poll_retries_after_error :
    sdio_host_get_packet sample_config (failing_bus STM_FAIL) initial_world 64 3
      = some ⟨STM_FAIL_TIMEOUT, none, ⟨0, 0, [len_reg_read sample_config,
          BusOp.hard_delay 1, len_reg_read sample_config,
          BusOp.hard_delay 1, len_reg_read sample_config]⟩⟩
    ∧ sdio_host_get_packet sample_config (first_then_bus ⟨STM_FAIL, 0⟩ ⟨STM_OK, 8⟩)
        initial_world 64 3
      = some ⟨STM_OK, some 8, ⟨0, 8, [len_reg_read sample_config,
          BusOp.hard_delay 1, len_reg_read sample_config,
          BusOp.read_bytes 1 129016 (Buf.data 0) 8 0]⟩⟩ := by
  decide

/-! ## Initialisation -/

/-- C11: on a bus where every call succeeds and every write reports the byte
written as latched, `esp_slave_init_io` returns `STM_OK` after twelve register
operations.  Function 0 (`0x11`) and function 1 (`0x111`) get block-size-high
2 with block-size-low (`0x10`, `0x110`) 0, but the last write, announced as
function 2 block-size-high, goes to `0x210` again: register `0x211` is never
written and the last value written to `0x210` is 2, not 0. -/
theorem init_io_func2_block_size_unset :
    esp_slave_init_io sample_regs true echo_bus initial_world
      = (STM_OK, ⟨0, 0, [BusOp.read_byte 0 2, BusOp.read_byte 0 3,
          BusOp.write_byte 0 2 6, BusOp.write_byte 0 3 6,
          BusOp.read_byte 0 4, BusOp.write_byte 0 4 7,
          BusOp.write_byte 0 0x10 0, BusOp.write_byte 0 0x11 2,
          BusOp.write_byte 0 0x110 0, BusOp.write_byte 0 0x111 2,
          BusOp.write_byte 0 0x210 0, BusOp.write_byte 0 0x210 2]⟩)
    ∧ last_written 0 0x11
        ( esp_slave_init_io sample_regs true echo_bus initial_world).2.trace = some 2
    ∧ last_written 0 0x111
        ( esp_slave_init_io sample_regs true echo_bus initial_world).2.trace = some 2
    ∧ last_written 0 0x110
        ( esp_slave_init_io sample_regs true echo_bus initial_world).2.trace = some 0
    ∧ last_written 0 0x211
        ( esp_slave_init_io sample_regs true echo_bus initial_world).2.trace = none
    ∧ last_written 0 0x210
        ( esp_slave_init_io sample_regs true echo_bus initial_world).2.trace = some 2 := by
  decide

/-- C12: on a bus where every call succeeds and the write to the
function-enable register reports 2 as the latched value, `esp_slave_init_io`
writes 6 to function-enable, then 2 (the latched value kept in `ioe`, not the
6 just assigned to `ior`) to function-ready, then 7 to interrupt-enable. -/
theorem init_io_fn_ready_gets_latched_value :
    esp_slave_init_io sample_regs true (const_bus 2) initial_world
      = (STM_OK, ⟨0, 0, [BusOp.read_byte 0 2, BusOp.read_byte 0 3,
          BusOp.write_byte 0 2 6, BusOp.write_byte 0 3 2,
          BusOp.read_byte 0 4, BusOp.write_byte 0 4 7,
          BusOp.write_byte 0 0x10 0, BusOp.write_byte 0 0x11 2,
          BusOp.write_byte 0 0x110 0, BusOp.write_byte 0 0x111 2,
          BusOp.write_byte 0 0x210 0, BusOp.write_byte 0 0x210 2]⟩) := by
  decide

/-- C13: a failed call under `CHECK_SDIO_ERR` is issued again, once for the
log line and once for the value returned.  When `sdio_driver_init()` fails
once and succeeds afterwards, `sdio_host_init` calls it three times and
returns `STM_OK` without any register operation; when every read of the
function-ready register fails with `STM_FAIL`, `sdio_host_init` returns
`STM_FAIL` after thirteen calls, ten of them after the first failure; with
error logging compiled out a failing `sdio_driver_init()` is still called
twice. -/
theorem host_init_reissues_failed_call :
    sdio_host_init sample_regs true (first_then_bus ⟨STM_FAIL, 0⟩ ⟨STM_OK, 0⟩) initial_world
      = (STM_OK, ⟨0, 0, [BusOp.driver_init, BusOp.driver_init, BusOp.driver_init]⟩)
    ∧ sdio_host_init sample_regs true (fail_at_bus (BusOp.read_byte 0 3) STM_FAIL) initial_world
      = (STM_FAIL, ⟨0, 0, [BusOp.driver_init,
          BusOp.read_byte 0 2, BusOp.read_byte 0 3, BusOp.read_byte 0 3, BusOp.read_byte 0 3,
          BusOp.read_byte 0 2, BusOp.read_byte 0 3, BusOp.read_byte 0 3, BusOp.read_byte 0 3,
          BusOp.read_byte 0 2, BusOp.read_byte 0 3, BusOp.read_byte 0 3,
          BusOp.read_byte 0 3]⟩)
    ∧ sdio_host_init sample_regs false (failing_bus STM_FAIL) initial_world
      = (STM_FAIL, ⟨0, 0, [BusOp.driver_init, BusOp.driver_init]⟩) := by
  decide

/-! ## Interrupt accessors -/

/-- C14: for every interrupt number `n` of a `uint8_t`: if `n ≥
MAX_SDIO_SCRATCH_REG_SUPPORTED`, `sdio_host_send_intr` returns
`STM_FAIL_INVALID_ARG` and issues no call; otherwise it issues exactly one
`STM32WriteReg` to `ESP_SLAVE_SCRATCH_REG_7` with the value `1 << (n +
ESP_SDIO_CONF_OFFSET)`, which is the single bit `2 ^ (n +
ESP_SDIO_CONF_OFFSET)` when that bit lies in a 32-bit word, and returns the
status of that write.  So it returns `STM_FAIL_INVALID_ARG` with no call
issued if and only if `n ≥ MAX_SDIO_SCRATCH_REG_SUPPORTED`. -/
theorem send_intr_validation (ic : IntrConfig) (bus : Bus) (w : World) (n : Nat)
    (hn : n < 256) :
    (n ≥ ic.MAX_SDIO_SCRATCH_REG_SUPPORTED →
      sdio_host_send_intr ic bus w n = (STM_FAIL_INVALID_ARG, w))
    ∧ (n < ic.MAX_SDIO_SCRATCH_REG_SUPPORTED →
      sdio_host_send_intr ic bus w n
        = ((bus (w.trace ++ [BusOp.write_reg SDIO_FUNC_1 ic.ESP_SLAVE_SCRATCH_REG_7
              ((1 <<< (n + ic.ESP_SDIO_CONF_OFFSET)) % U32)])).ret,
            { w with trace := w.trace ++ [BusOp.write_reg SDIO_FUNC_1
                ic.ESP_SLAVE_SCRATCH_REG_7 ((1 <<< (n + ic.ESP_SDIO_CONF_OFFSET)) % U32)] }))
    ∧ (n + ic.ESP_SDIO_CONF_OFFSET < 32 →
      (1 <<< (n + ic.ESP_SDIO_CONF_OFFSET)) % U32 = 2 ^ (n + ic.ESP_SDIO_CONF_OFFSET))
    ∧ (((sdio_host_send_intr ic bus w n).1 = STM_FAIL_INVALID_ARG
          ∧ (sdio_host_send_intr ic bus w n).2.trace = w.trace)
        ↔ n ≥ ic.MAX_SDIO_SCRATCH_REG_SUPPORTED) := by
  have _ := hn
  have h1 : n ≥ ic.MAX_SDIO_SCRATCH_REG_SUPPORTED →
      sdio_host_send_intr ic bus w n = (STM_FAIL_INVALID_ARG, w) := by
    intro h
    simp only [sdio_host_send_intr]
    rw [if_pos h]
  have h2 : n < ic.MAX_SDIO_SCRATCH_REG_SUPPORTED →
      sdio_host_send_intr ic bus w n
        = ((bus (w.trace ++ [BusOp.write_reg SDIO_FUNC_1 ic.ESP_SLAVE_SCRATCH_REG_7
              ((1 <<< (n + ic.ESP_SDIO_CONF_OFFSET)) % U32)])).ret,
            { w with trace := w.trace ++ [BusOp.write_reg SDIO_FUNC_1
                ic.ESP_SLAVE_SCRATCH_REG_7 ((1 <<< (n + ic.ESP_SDIO_CONF_OFFSET)) % U32)] }) := by
    intro h
    simp only [sdio_host_send_intr, send_intr_write, bus_call]
    rw [if_neg (by omega)]
  refine ⟨h1, h2, ?_, ?_⟩
  · intro hlt
    rw [Nat.one_shiftLeft]
    apply Nat.mod_eq_of_lt
    have : 2 ^ (n + ic.ESP_SDIO_CONF_OFFSET) < 2 ^ 32 :=
      Nat.pow_lt_pow_right (by decide) hlt
    simpa [U32] using this
  · constructor
    · rintro ⟨_, htr⟩
      by_contra hlt
      rw [h2 (by omega)] at htr
      simp at htr
    · intro h
      rw [h1 h]
      exact ⟨rfl, rfl⟩

/-- C14, scenario: interrupt number 5 with scratch registers 0 to 3 supported
fails with `STM_FAIL_INVALID_ARG` and issues no call. -/
theorem send_intr_validation_witness :
    sdio_host_send_intr sample_intr_config (const_bus 0) initial_world 5
      = (STM_FAIL_INVALID_ARG, initial_world) :=
  (send_intr_validation sample_intr_config (const_bus 0) initial_world 5 (by decide)).1
    (by decide)

/-! ## Send credit -/

/-- C15: with `T = ESP_TX_BUFFER_MAX ≤ 2^31`, when the read of the token
register succeeds with the 32-bit value `v`, the raw credit `raw = (v >>
ESP_SDIO_SEND_OFFSET) & ESP_TX_BUFFER_MASK` is below `T` and the transmit
counter `t` is below `T`, `esp_sdio_host_get_buffer_size` returns exactly
`(raw + T - t) mod T`, a value below `T`; the value returned is the same on
any bus and in any state that give the same register value and the same
transmit counter; and when the read fails the value returned is 0. -/
theorem host_get_buffer_size_decode (c : Config) (ic : IntrConfig) (bus : Bus) (w : World)
    (hT : c.ESP_TX_BUFFER_MAX ≤ 2147483648) :
    (∀ v : Nat, bus (w.trace ++ [token_reg_read ic]) = ⟨STM_OK, v⟩ →
      ((v % U32) >>> ic.ESP_SDIO_SEND_OFFSET) &&& ic.ESP_TX_BUFFER_MASK
        < c.ESP_TX_BUFFER_MAX →
      w.sdio_esp_tx_bytes < c.ESP_TX_BUFFER_MAX →
      (esp_sdio_host_get_buffer_size c ic bus w).1
        = ((((v % U32) >>> ic.ESP_SDIO_SEND_OFFSET) &&& ic.ESP_TX_BUFFER_MASK)
            + c.ESP_TX_BUFFER_MAX - w.sdio_esp_tx_bytes) % c.ESP_TX_BUFFER_MAX
      ∧ (esp_sdio_host_get_buffer_size c ic bus w).1 < c.ESP_TX_BUFFER_MAX)
    ∧ (∀ (bus2 : Bus) (w2 : World),
      bus2 (w2.trace ++ [token_reg_read ic]) = bus (w.trace ++ [token_reg_read ic]) →
      w2.sdio_esp_tx_bytes = w.sdio_esp_tx_bytes →
      (esp_sdio_host_get_buffer_size c ic bus2 w2).1
        = (esp_sdio_host_get_buffer_size c ic bus w).1)
    ∧ ((bus (w.trace ++ [token_reg_read ic])).ret ≠ STM_OK →
      (esp_sdio_host_get_buffer_size c ic bus w).1 = 0) := by
  refine ⟨?_, ?_, ?_⟩
  · intro v hread hraw ht
    have hres : (esp_sdio_host_get_buffer_size c ic bus w).1
        = tx_credit_decode c ic w.sdio_esp_tx_bytes v := by
      simp only [esp_sdio_host_get_buffer_size, bus_call]
      rw [hread]
      simp
    rw [hres]
    unfold tx_credit_decode
    generalize ((v % U32) >>> ic.ESP_SDIO_SEND_OFFSET) &&& ic.ESP_TX_BUFFER_MASK = raw at hraw ⊢
    simp only
    rw [u32_add_of_lt (by omega), u32_sub_of_le (by omega) (by omega)]
    exact ⟨rfl, Nat.mod_lt _ (by omega)⟩
  · intro bus2 w2 hb ht
    simp only [esp_sdio_host_get_buffer_size, bus_call]
    rw [hb, ht]
    split <;> rfl
  · intro hne
    simp only [esp_sdio_host_get_buffer_size, bus_call]
    rw [if_pos hne]

/-- C15, example: token register `0x00050000` (raw credit 5) with transmit
counter 3 gives a credit of 2; after the counter has wrapped to 4000 the same
register value gives `(5 + 4096 - 4000) mod 4096 = 101`. -/
theorem host_get_buffer_size_decode_witness :
    (esp_sdio_host_get_buffer_size sample_config sample_intr_config (const_bus 327680)
        ⟨3, 0, []⟩).1 = 2
    ∧ (esp_sdio_host_get_buffer_size sample_config sample_intr_config (const_bus 327680)
        ⟨4000, 0, []⟩).1 = 101 :=
  ⟨((host_get_buffer_size_decode sample_config sample_intr_config (const_bus 327680)
      ⟨3, 0, []⟩ (by decide)).1 327680 rfl (by decide) (by decide)).1,
   ((host_get_buffer_size_decode sample_config sample_intr_config (const_bus 327680)
      ⟨4000, 0, []⟩ (by decide)).1 327680 rfl (by decide) (by decide)).1⟩

/-! ## Direction exclusivity -/

/-- C16: every call of `sdio_host_get_packet` returns with the transmit
counter as it was, every call of `sdio_host_send_packet` returns with the
receive counter as it was, and `sdio_host_clear_intr`, `sdio_host_get_intr`
and `sdio_host_send_intr` leave both counters as they were, on every bus and
for every argument. -/
theorem counters_direction_exclusive (c : Config) (ic : IntrConfig) (bus : Bus) (w : World) :
    (∀ size wait_ms : Nat, ∃ r, sdio_host_get_packet c bus w size wait_ms = some r
      ∧ r.world.sdio_esp_tx_bytes = w.sdio_esp_tx_bytes)
    ∧ (∀ length : Nat, ∃ r, sdio_host_send_packet c bus w length = some r
      ∧ r.2.sdio_esp_rx_bytes = w.sdio_esp_rx_bytes)
    ∧ (∀ intr_mask : Nat,
      (sdio_host_clear_intr ic bus w intr_mask).2.sdio_esp_tx_bytes = w.sdio_esp_tx_bytes
      ∧ (sdio_host_clear_intr ic bus w intr_mask).2.sdio_esp_rx_bytes = w.sdio_esp_rx_bytes)
    ∧ (∀ intr_st_null : Bool,
      (sdio_host_get_intr ic bus w intr_st_null).2.2.sdio_esp_tx_bytes = w.sdio_esp_tx_bytes
      ∧ (sdio_host_get_intr ic bus w intr_st_null).2.2.sdio_esp_rx_bytes
          = w.sdio_esp_rx_bytes)
    ∧ (∀ intr_no : Nat,
      (sdio_host_send_intr ic bus w intr_no).2.sdio_esp_tx_bytes = w.sdio_esp_tx_bytes
      ∧ (sdio_host_send_intr ic bus w intr_no).2.sdio_esp_rx_bytes = w.sdio_esp_rx_bytes) := by
  refine ⟨?_, ?_, ?_, ?_, ?_⟩
  · intro size wait_ms
    obtain ⟨r, hr, htx, _⟩ := get_packet_cases c bus w size wait_ms
    exact ⟨r, hr, htx⟩
  · intro length
    obtain ⟨r, hr, hrx, _⟩ := send_packet_cases c bus w length
    exact ⟨r, hr, hrx⟩
  · intro intr_mask
    exact ⟨rfl, rfl⟩
  · intro intr_st_null
    simp only [sdio_host_get_intr, bus_call]
    cases intr_st_null
    · simp only [Bool.false_eq_true, if_false]
      split <;> exact ⟨rfl, rfl⟩
    · exact ⟨rfl, rfl⟩
  · intro intr_no
    simp only [sdio_host_send_intr, bus_call]
    split <;> exact ⟨rfl, rfl⟩

/-! ## Receive stays within the padded buffer -/

theorem get_packet_poll_trace (c : Config) (bus : Bus) (wait_ms : Nat) :
    ∀ (fuel len wait_time : Nat) (w : World) (res : PollResult),
      get_packet_poll c bus wait_ms fuel len wait_time w = some res →
      ∃ ops, (poll_world res).trace = w.trace ++ ops ∧ ∀ op ∈ ops, data_end op = 0 := by
  intro fuel
  induction fuel with
  | zero => intro len wt w res h; simp [get_packet_poll] at h
  | succ n ih =>
    intro len wt w res h
    simp only [get_packet_poll, get_rx_data_size_world] at h
    split at h
    · injection h with h
      subst h
      exact ⟨[len_reg_read c], rfl, by simp [len_reg_read, data_end]⟩
    · split at h
      · injection h with h
        subst h
        exact ⟨[len_reg_read c], rfl, by simp [len_reg_read, data_end]⟩
      · obtain ⟨ops, hops, hall⟩ := ih _ _ _ _ h
        refine ⟨len_reg_read c :: BusOp.hard_delay 1 :: ops, ?_, ?_⟩
        · rw [hops]
          simp [bus_call]
        · intro op hop
          simp only [List.mem_cons] at hop
          rcases hop with rfl | rfl | hop
          · simp [len_reg_read, data_end]
          · simp [data_end]
          · exact hall op hop

theorem get_packet_chunk_within (c : Config) (L l p : Nat)
    (hpl : p + l = L) (hp : 512 ∣ p) :
    within_padded_buffer L (get_packet_chunk c l p).1 := by
  obtain ⟨k, hk⟩ := hp
  simp only [get_packet_chunk, ESP_BLOCK_SIZE]
  by_cases hge : 512 ≤ l
  · have hq : l / 512 ≠ 0 := Nat.ne_of_gt (Nat.div_pos hge (by decide))
    rw [if_pos hq]
    left
    simp only [data_end]
    have := Nat.div_mul_le_self l 512
    omega
  · have hq : ¬ l / 512 ≠ 0 := by
      rw [Nat.div_eq_of_lt (by omega)]; simp
    rw [if_neg hq]
    right
    refine ⟨⟨_, _, _, _, _, rfl⟩, ?_⟩
    simp only [data_end]
    rw [align4_eq_round_up l (by omega)]
    omega

theorem get_packet_transfer_within (c : Config) (bus : Bus) (L : Nat) :
    ∀ (fuel l p : Nat) (w : World) (res : stm_ret_t × World),
      transfer_loop (get_packet_chunk c) bus fuel l p w = some res →
      l < 4294967296 → p + l = L → 512 ∣ p →
      ∃ ops, res.2.trace = w.trace ++ ops ∧ ∀ op ∈ ops, within_padded_buffer L op := by
  intro fuel
  induction fuel with
  | zero => intro l p w res h; simp [transfer_loop] at h
  | succ n ih =>
    intro l p w res h hl hpl hp
    have hop := get_packet_chunk_within c L l p hpl hp
    simp only [transfer_loop] at h
    split at h
    · injection h with h
      subst h
      exact ⟨[(get_packet_chunk c l p).1], rfl, by simpa using hop⟩
    · split at h
      · rename_i hne
        rw [get_packet_chunk_len] at h hne
        by_cases hge : 512 ≤ l
        · rw [if_pos hge] at h hne
          rw [u32_sub_of_le hl hge] at h
          obtain ⟨ops, hops, hall⟩ := ih _ _ _ _ h (by omega) (by omega)
            (Dvd.dvd.add hp (dvd_refl 512))
          refine ⟨(get_packet_chunk c l p).1 :: ops, ?_, ?_⟩
          · rw [hops]
            simp [bus_call]
          · intro op hmem
            simp only [List.mem_cons] at hmem
            rcases hmem with rfl | hmem
            · exact hop
            · exact hall op hmem
        · exfalso
          rw [if_neg hge, u32_sub_of_le hl (le_refl _)] at hne
          omega
      · injection h with h
        subst h
        exact ⟨[(get_packet_chunk c l p).1], rfl, by simpa using hop⟩

theorem within_padded_buffer_mono {a b : Nat} (hab : a ≤ b) (op : BusOp)
    (h : within_padded_buffer a op) : within_padded_buffer b op := by
  rcases h with h | ⟨hex, h⟩
  · exact Or.inl (by omega)
  · exact Or.inr ⟨hex, by omega⟩

/-- C18 (as the code has it): every call of `sdio_host_get_packet` with a
buffer of `size` bytes returns, and each call it issued either ends within the
buffer (buffer offset plus bytes asked for is at most `size`; this holds for
every block read) or is the byte read of the remainder, whose length is
rounded up to a multiple of 4 and which ends within `size` rounded up to a
multiple of 4.  When `size` is a multiple of 4 every call ends within the
buffer. -/
theorem get_packet_within_padded_buffer (c : Config) (bus : Bus) (w : World)
    (size wait_ms : Nat) :
    ∃ r ops, sdio_host_get_packet c bus w size wait_ms = some r
      ∧ r.world.trace = w.trace ++ ops
      ∧ (∀ op ∈ ops, within_padded_buffer size op)
      ∧ (size % 4 = 0 → ∀ op ∈ ops, data_end op ≤ size) := by
  have key : ∃ r ops, sdio_host_get_packet c bus w size wait_ms = some r
      ∧ r.world.trace = w.trace ++ ops
      ∧ (∀ op ∈ ops, within_padded_buffer size op) := by
    unfold sdio_host_get_packet
    by_cases hs : size ≤ 0
    · rw [if_pos hs]
      exact ⟨_, [], rfl, by simp, by simp⟩
    · rw [if_neg hs]
      obtain ⟨res, hres⟩ := get_packet_poll_total c bus wait_ms (wait_ms + 1) 0 0 w
        (by omega) (by omega)
      obtain ⟨pops, hpops, hpall⟩ := get_packet_poll_trace c bus wait_ms _ _ _ _ _ hres
      have hfr := get_packet_poll_frame c bus wait_ms _ _ _ _ _ hres
      have hpin : ∀ op ∈ pops, within_padded_buffer size op := by
        intro op hop
        exact Or.inl (by rw [hpall op hop]; omega)
      rw [hres]
      cases res with
      | timed_out w1 => exact ⟨_, pops, rfl, hpops, hpin⟩
      | ready len w1 =>
        obtain ⟨_, _, _, h4⟩ := hfr.1 len w1 rfl
        simp only [poll_world] at hpops
        simp only
        by_cases hgt : len > size
        · rw [if_pos hgt]
          exact ⟨_, pops, rfl, hpops, hpin⟩
        · rw [if_neg hgt]
          obtain ⟨tr, htr⟩ := get_packet_transfer_total c bus (len + 1) len 0 w1 h4
            (by have := Nat.div_le_self len 512; omega)
          obtain ⟨tops, htops, htall⟩ := get_packet_transfer_within c bus len _ _ _ _ _ htr
            h4 (by omega) (dvd_zero 512)
          rw [htr]
          obtain ⟨err, w2⟩ := tr
          simp only at htops ⊢
          have hall : ∀ op ∈ pops ++ tops, within_padded_buffer size op := by
            intro op hop
            rcases List.mem_append.mp hop with hop | hop
            · exact hpin op hop
            · exact within_padded_buffer_mono (by omega) op (htall op hop)
          have htrace : w2.trace = w.trace ++ (pops ++ tops) := by
            rw [htops, hpops, List.append_assoc]
          by_cases he : err ≠ STM_OK
          · rw [if_pos he]
            exact ⟨_, pops ++ tops, rfl, htrace, hall⟩
          · rw [if_neg he]
            exact ⟨_, pops ++ tops, rfl, htrace, hall⟩
  obtain ⟨r, ops, hr, htr, hall⟩ := key
  refine ⟨r, ops, hr, htr, hall, ?_⟩
  intro h4 op hop
  rcases hall op hop with h | ⟨_, h⟩
  · exact h
  · omega

/-- C18 as stated fails at `L = size = 5`: the byte read is asked for 8 bytes
at buffer offset 0, three more than the buffer holds. -/
theorem get_packet_within_buffer_counterexample :
    sdio_host_get_packet sample_config (const_bus 5) initial_world 5 10
      = some ⟨STM_OK, some 5, ⟨0, 5, [len_reg_read sample_config,
          BusOp.read_bytes 1 129019 (Buf.data 0) 8 0]⟩⟩
    ∧ ¬ (data_end (BusOp.read_bytes 1 129019 (Buf.data 0) 8 0) ≤ 5) := by
  decide

/-! ## Network device stub -/

/-- C17 (as the code has it): for a non-`NULL` device and buffer.  If the
device has a network handle attached, its state is UP and `_h_queue_item`
succeeds, `netdev_rx` returns `STM_OK`, having called the receive callback of
the handle exactly once when that is not `NULL` and not at all when it is
`NULL`, and then freed the buffer.  If the state is not UP or `_h_queue_item`
fails, `netdev_rx` returns `STM_FAIL` and calls no receive callback, with or
without a network handle. -/
theorem netdev_rx_dispatch (os : Os) (tr : List OsOp) (ndev : netdev) (buf : pbuf) :
    (∀ handle : network_handle, ndev.net_handle = some handle →
      ndev.state = NETDEV_STATE_UP → os (tr ++ [OsOp.queue_item ndev.rx_q]) = 0 →
      (∀ fn, handle.net_rx_callback = some fn →
        netdev_rx os tr (some ndev) (some buf)
          = some (STM_OK, tr ++ [OsOp.queue_item ndev.rx_q, OsOp.rx_callback fn,
              OsOp.free_buf]))
      ∧ (handle.net_rx_callback = none →
        netdev_rx os tr (some ndev) (some buf)
          = some (STM_OK, tr ++ [OsOp.queue_item ndev.rx_q, OsOp.free_buf])))
    ∧ (¬ (ndev.state = NETDEV_STATE_UP ∧ os (tr ++ [OsOp.queue_item ndev.rx_q]) = 0) →
      ∃ ops, netdev_rx os tr (some ndev) (some buf) = some (STM_FAIL, tr ++ ops)
        ∧ ∀ fn, OsOp.rx_callback fn ∉ ops) := by
  constructor
  · intro handle hh hup hq
    constructor
    · intro fn hfn
      simp only [netdev_rx]
      rw [if_pos hup, if_neg (not_not.mpr hq), hh]
      simp [hfn]
    · intro hfn
      simp only [netdev_rx]
      rw [if_pos hup, if_neg (not_not.mpr hq), hh]
      simp [hfn]
  · intro hnot
    simp only [netdev_rx]
    by_cases hup : ndev.state = NETDEV_STATE_UP
    · have hq : os (tr ++ [OsOp.queue_item ndev.rx_q]) ≠ 0 := fun h => hnot ⟨hup, h⟩
      rw [if_pos hup, if_pos hq]
      cases hp : buf.payload with
      | none =>
        exact ⟨[OsOp.queue_item ndev.rx_q, OsOp.free_buf, OsOp.msleep 50],
          by simp [netdev_rx_done, hp], by simp⟩
      | some p =>
        exact ⟨[OsOp.queue_item ndev.rx_q, OsOp.free_payload, OsOp.free_buf, OsOp.msleep 50],
          by simp [netdev_rx_done, hp], by simp⟩
    · rw [if_neg hup]
      cases hp : buf.payload with
      | none =>
        exact ⟨[OsOp.free_buf, OsOp.msleep 50], by simp [netdev_rx_done, hp], by simp⟩
      | some p =>
        exact ⟨[OsOp.free_payload, OsOp.free_buf, OsOp.msleep 50],
          by simp [netdev_rx_done, hp], by simp⟩

/-- C17, example: a device that is UP with a handle whose receive callback is
function 3, on a queue that accepts the buffer: one callback, `STM_OK`. -/
theorem netdev_rx_dispatch_witness :
    netdev_rx (const_os 0) [] (some ⟨NETDEV_STATE_UP, some 1, some ⟨some 3⟩⟩) (some ⟨some 9⟩)
      = some (STM_OK, [] ++ [OsOp.queue_item (some 1), OsOp.rx_callback 3, OsOp.free_buf]) :=
  ((netdev_rx_dispatch (const_os 0) [] ⟨NETDEV_STATE_UP, some 1, some ⟨some 3⟩⟩
    ⟨some 9⟩).1 ⟨some 3⟩ rfl rfl rfl).1 3 rfl

/-- C17 as stated fails for a device without a network handle: with the state
UP and a queue that accepts the buffer, `netdev_rx` reads `net_rx_callback`
through the `NULL` `net_handle` and does not return `STM_OK`. -/
theorem netdev_rx_null_handle_counterexample :
    netdev_rx (const_os 0) [] (some ⟨NETDEV_STATE_UP, some 1, none⟩) (some ⟨some 9⟩) = none
    ∧ (const_os 0) ([] ++ [OsOp.queue_item (some 1)]) = 0 := by
  decide

/-- C19: `netdev_open` on a device without a receive queue creates the queue,
sets the state UP and returns `STM_OK`; after `netdev_close` the queue is
still there and the state is DOWN, and a second `netdev_open` only resets the
queue and returns `STM_OK` with the state still DOWN, so that the next
`netdev_rx` is turned away with `STM_FAIL`. -/
theorem netdev_reopen_stays_down :
    netdev_open (const_os 7) [] (some ⟨NETDEV_STATE_DOWN, none, some ⟨some 3⟩⟩)
      = (STM_OK, some ⟨NETDEV_STATE_UP, some 7, some ⟨some 3⟩⟩, [OsOp.create_queue])
    ∧ netdev_close [OsOp.create_queue] (some ⟨NETDEV_STATE_UP, some 7, some ⟨some 3⟩⟩)
      = (some ⟨NETDEV_STATE_DOWN, some 7, none⟩,
          [OsOp.create_queue, OsOp.msleep 200, OsOp.reset_queue 7])
    ∧ netdev_open (const_os 7) [OsOp.create_queue, OsOp.msleep 200, OsOp.reset_queue 7]
        (some ⟨NETDEV_STATE_DOWN, some 7, none⟩)
      = (STM_OK, some ⟨NETDEV_STATE_DOWN, some 7, none⟩,
          [OsOp.create_queue, OsOp.msleep 200, OsOp.reset_queue 7, OsOp.reset_queue 7])
    ∧ netdev_rx (const_os 0) [] (some ⟨NETDEV_STATE_DOWN, some 7, none⟩) (some ⟨some 9⟩)
      = some (STM_FAIL, [OsOp.free_payload, OsOp.free_buf, OsOp.msleep 50]) := by
  decide

end SdioHost
